import Mathlib

/-!
Verification of the nerva episode-generation pipeline against its
natural-language specification.

The Python sources are shallowly embedded as executable Lean functions:

* `app/services/chunker.py`      → namespace `Nerva.TextChunker`
* `app/services/tts_api.py`      → namespace `Nerva.APITTSService`
* `app/services/audio_mixer.py`  → namespace `Nerva.AudioMixer`
* `app/workers/tasks.py`         → namespace `Nerva.Tasks`

Text is modelled as `List Char` (the sources only handle ASCII inputs in the
relevant paths), Python floats as `ℚ`, machine-external effects (database
rows, memory sampling, subprocess calls, HTTP calls) as explicit state and
environment-supplied outcomes.  Scanning loops are written with a `fuel`
argument so that every definition is structurally recursive and hence
evaluable by the kernel; each top-level wrapper passes fuel strictly larger
than the number of characters consumed, which the scan consumes one or more
of per step.
-/

namespace Nerva

/-! ### Python primitives shared by several modules -/

/-- Decidable equality for `Except`, needed to evaluate concrete runs. -/
instance {ε α : Type} [DecidableEq ε] [DecidableEq α] : DecidableEq (Except ε α) := fun a b =>
  match a, b with
  | .ok x, .ok y => decidable_of_iff (x = y) (by simp)
  | .error x, .error y => decidable_of_iff (x = y) (by simp)
  | .ok _, .error _ => isFalse (by simp)
  | .error _, .ok _ => isFalse (by simp)

/-- Python whitespace class `\s` restricted to ASCII: space, tab, LF, VT, FF, CR. -/
def isPySpace (c : Char) : Bool :=
  c = ' ' || c.toNat = 9 || c.toNat = 10 || c.toNat = 11 || c.toNat = 12 || c.toNat = 13

/-- Python `\w` restricted to ASCII: alphanumerics and underscore. -/
def isWordChar (c : Char) : Bool :=
  c.isAlphanum || c = '_'

/-- `str.strip()` with no arguments: drop leading and trailing whitespace. -/
def pyStrip (l : List Char) : List Char :=
  ((l.dropWhile isPySpace).reverse.dropWhile isPySpace).reverse

/-- Python `str.lower` on ASCII letters. -/
def toLowerCh (c : Char) : Char :=
  if c.toNat ≥ 65 && c.toNat ≤ 90 then Char.ofNat (c.toNat + 32) else c

/-- `pat in s` for Python strings: `pat` occurs as a contiguous substring of `s`. -/
def containsSub (s pat : List Char) : Bool :=
  pat.isPrefixOf s ||
    match s with
    | [] => false
    | _ :: t => containsSub t pat

/-- `str.replace(pat, rep)`: replace all occurrences left to right,
non-overlapping.  `fuel` bounds the scan; one character or more is consumed
per step, so `l.length + 1` always suffices. -/
def replaceFuel (pat rep : List Char) : Nat → List Char → List Char
  | 0, l => l
  | _, [] => []
  | fuel + 1, c :: rest =>
    if pat ≠ [] && pat.isPrefixOf (c :: rest) then
      rep ++ replaceFuel pat rep fuel ((c :: rest).drop pat.length)
    else
      c :: replaceFuel pat rep fuel rest

/-- `str.replace(pat, rep)` at adequate fuel. -/
def pyReplace (l pat rep : List Char) : List Char :=
  replaceFuel pat rep (l.length + 1) l

/-- `str.split()` with no arguments: split on whitespace runs, dropping
empty pieces. -/
def pySplitWs (l : List Char) : List (List Char) :=
  (l.foldr
    (fun c acc =>
      if isPySpace c then [] :: acc
      else
        match acc with
        | [] => [[c]]
        | w :: ws => (c :: w) :: ws)
    []).filter (fun w => w ≠ [])

/-- `" ".join(pieces)`. -/
def joinSp : List (List Char) → List Char
  | [] => []
  | [w] => w
  | w :: ws => w ++ ' ' :: joinSp ws

/-! ### `app/services/chunker.py` -/

namespace TextChunker

/-- The three constructor arguments of `TextChunker`. -/
structure Params where
  chunk_size : Nat
  chunk_overlap : Nat
  min_chunk_size : Nat
deriving Repr, DecidableEq

/-- The metadata dict attached to each chunk:
`{**metadata, "chunk_index": i, "total_chunks": len(chunks)}`. -/
structure Meta (α : Type) where
  base : α
  chunk_index : Nat
  total_chunks : Nat
deriving Repr, DecidableEq

/-- The `Chunk` dataclass of `chunker.py`. -/
structure Chunk (α : Type) where
  content : List Char
  index : Nat
  token_count : Nat
  metadata : Meta α
deriving Repr, DecidableEq

/-- `_estimate_tokens`: `0` for empty text, else `max(1, len(text) // 4)`. -/
def estimate_tokens (l : List Char) : Nat :=
  if l = [] then 0 else max 1 (l.length / 4)

/-- Collapse every whitespace run into a single space:
`re.sub(r'\s+', ' ', text)`.  The Boolean tracks whether the previous kept
character was produced from a whitespace run. -/
def collapseWs : Bool → List Char → List Char
  | _, [] => []
  | prevSpace, c :: rest =>
    if isPySpace c then
      if prevSpace then collapseWs true rest
      else ' ' :: collapseWs true rest
    else c :: collapseWs false rest

/-- Characters kept by `re.sub(r'[^\w\s.,!?;:\'"()-]', '', text)`:
word characters, whitespace, and the punctuation whitelist
`. , ! ? ; : ' " ( ) -` (the apostrophe and double quote are written via
their code points 39 and 34). -/
def keepChar (c : Char) : Bool :=
  isWordChar c || isPySpace c ||
    c = '.' || c = ',' || c = '!' || c = '?' || c = ';' || c = ':' ||
    c.toNat = 39 || c.toNat = 34 || c = '(' || c = ')' || c = '-'

/-- `_clean_text`: collapse whitespace, strip non-whitelisted characters,
then `strip()`. -/
def clean_text (l : List Char) : List Char :=
  pyStrip ((collapseWs false l).filter keepChar)

/-- The protected-abbreviation list of `_split_sentences`. -/
def abbreviations : List (List Char) :=
  ["Mr.".data, "Mrs.".data, "Ms.".data, "Dr.".data, "Prof.".data, "Sr.".data,
   "Jr.".data, "vs.".data, "etc.".data, "Inc.".data, "Ltd.".data, "Corp.".data]

/-- Sentence-terminal punctuation class `[.!?]`. -/
def isSentEnd (c : Char) : Bool :=
  c = '.' || c = '!' || c = '?'

/-- `re.split(r'[.!?]+\s+', text)`: a separator is a maximal run of
terminal punctuation followed by at least one whitespace character; the
whitespace run is consumed with it.  `acc` holds the current piece in
reverse.  Each step consumes at least one character, so fuel
`l.length + 1` suffices. -/
def splitRegex : Nat → List Char → List Char → List (List Char)
  | 0, acc, l => [acc.reverse ++ l]
  | _ + 1, acc, [] => [acc.reverse]
  | fuel + 1, acc, c :: rest =>
    if isSentEnd c then
      let run := rest.takeWhile isSentEnd
      let after := rest.dropWhile isSentEnd
      if (after.takeWhile isPySpace) = [] then
        splitRegex fuel (run.reverse ++ c :: acc) after
      else
        acc.reverse :: splitRegex fuel [] (after.dropWhile isPySpace)
    else
      splitRegex fuel (c :: acc) rest

/-- `_split_sentences`: protect the abbreviations (each `.` becomes the
marker `<DOT>`), split on the sentence regex, then restore the dots, strip
each piece, and keep the non-empty ones. -/
def split_sentences (l : List Char) : List (List Char) :=
  let protected_ := abbreviations.foldl
    (fun t abbr => pyReplace t abbr (pyReplace abbr ['.'] "<DOT>".data)) l
  (splitRegex (protected_.length + 1) [] protected_).filterMap fun s =>
    let restored := pyStrip (pyReplace s "<DOT>".data ['.'])
    if restored = [] then none else some restored

/-- The inner word loop of `_group_sentences` that hard-splits a
sentence longer than `chunk_size`.  State: produced chunks so far, the
running `temp_chunk` (in order) and `temp_tokens`. -/
def splitWords (p : Params) :
    List (List Char) → List (List Char) → List (List Char) → Nat →
    List (List Char) × List (List Char) × Nat
  | [], chunks, temp, tempTok => (chunks, temp, tempTok)
  | w :: ws, chunks, temp, tempTok =>
    let wTok := estimate_tokens w + 1
    if p.chunk_size < tempTok + wTok then
      let chunks' := if temp = [] then chunks else chunks ++ [joinSp temp]
      splitWords p ws chunks' [w] wTok
    else
      splitWords p ws chunks (temp ++ [w]) (tempTok + wTok)

/-- `_get_overlap_sentences`: walk the closed chunk from its end, keeping
sentences while the cumulative token estimate stays within
`chunk_overlap`.  The input here is already reversed; `acc` collects the
kept sentences in original order. -/
def overlapAux (p : Params) : List (List Char) → List (List Char) → Nat → List (List Char)
  | [], acc, _ => acc
  | s :: rest, acc, tok =>
    let sTok := estimate_tokens s
    if p.chunk_overlap < tok + sTok then acc
    else overlapAux p rest (s :: acc) (tok + sTok)

/-- `_get_overlap_sentences` on a chunk given as its sentence list. -/
def get_overlap_sentences (p : Params) (sentences : List (List Char)) : List (List Char) :=
  if sentences = [] then [] else overlapAux p sentences.reverse [] 0

/-- The main loop of `_group_sentences`.  State: produced chunks,
`current_chunk` (sentence list) and `current_tokens`. -/
def groupAux (p : Params) :
    List (List Char) → List (List Char) → List (List Char) → Nat → List (List Char)
  | [], chunks, current, _ =>
    if current = [] then chunks else chunks ++ [joinSp current]
  | s :: rest, chunks, current, curTok =>
    let sTok := estimate_tokens s
    if p.chunk_size < sTok then
      let chunks1 := if current = [] then chunks else chunks ++ [joinSp current]
      let r := splitWords p (pySplitWs s) chunks1 [] 0
      let chunks2 := r.1
      let temp := r.2.1
      let tempTok := r.2.2
      if temp = [] then groupAux p rest chunks2 [] 0
      else groupAux p rest chunks2 temp tempTok
    else
      if p.chunk_size < curTok + sTok then
        let chunks1 := if current = [] then chunks else chunks ++ [joinSp current]
        let ov := get_overlap_sentences p current
        let current' := ov ++ [s]
        groupAux p rest chunks1 current' (current'.foldl (fun a t => a + estimate_tokens t) 0)
      else
        groupAux p rest chunks (current ++ [s]) (curTok + sTok)

/-- `_group_sentences`. -/
def group_sentences (p : Params) (sentences : List (List Char)) : List (List Char) :=
  groupAux p sentences [] [] 0

/-- The chunk-text list produced inside `chunk` before the
`min_chunk_size` filter: clean, split into sentences, group. -/
def produced_chunks (p : Params) (text : List Char) : List (List Char) :=
  group_sentences p (split_sentences (clean_text text))

/-- The final `for i, chunk_text in enumerate(chunks)` loop of `chunk`:
keep a chunk only when its token estimate reaches `min_chunk_size`. -/
def filterLoop (p : Params) (total : Nat) (meta : α) :
    Nat → List (List Char) → List (Chunk α)
  | _, [] => []
  | i, t :: rest =>
    let tc := estimate_tokens t
    if p.min_chunk_size ≤ tc then
      ⟨t, i, tc, ⟨meta, i, total⟩⟩ :: filterLoop p total meta (i + 1) rest
    else
      filterLoop p total meta (i + 1) rest

/-- `TextChunker.chunk`: empty or whitespace-only input yields `[]`;
otherwise clean, split, group, then filter by `min_chunk_size`. -/
def chunk (p : Params) (text : List Char) (meta : α) : List (Chunk α) :=
  if text = [] || pyStrip text = [] then []
  else
    let cs := produced_chunks p text
    filterLoop p cs.length meta 0 cs

end TextChunker

/-! ### `app/services/tts_api.py`, `APITTSService.synthesize_segments`

A synthesis attempt is an environment-supplied outcome
`outcome i a : Except String Unit` for segment `i`, attempt `a`; an error
carries `str(e)`.  File writing is left to the environment (the produced
path is deterministic), and the visible behaviour of the loop — attempts,
sleeps, the result list — is reproduced exactly. -/

namespace APITTSService

/-- A script segment `{"speaker": ..., "text": ...}`. -/
structure Seg where
  speaker : String
  text : String
deriving Repr, DecidableEq

/-- A result entry: `{**segment, "index": i, "audio_path": ..., "error"?: ...}`. -/
structure TtsRec where
  speaker : String
  text : String
  index : Nat
  audio_path : Option String
  error : Option String
deriving Repr, DecidableEq

/-- Observable events of `synthesize_segments`: a progress callback
invocation, a synthesis attempt, a `time.sleep`. -/
inductive TtsEv where
  | cb (i total : Nat)
  | call (i attempt : Nat)
  | slept (i secs : Nat)
deriving Repr, DecidableEq

/-- The transient-error test: `str(e).lower()` contains one of
`"timeout"`, `"timed out"`, `"429"`, `"rate limit"`. -/
def isTransientErr (e : String) : Bool :=
  let low := e.data.map toLowerCh
  containsSub low "timeout".data || containsSub low "timed out".data ||
    containsSub low "429".data || containsSub low "rate limit".data

/-- `f"segment_{i:04d}.mp3"` inside `output_dir`. -/
def segPath (outputDir : String) (i : Nat) : String :=
  let s := toString i
  outputDir ++ "/segment_" ++ String.mk (List.replicate (4 - s.length) '0') ++ s ++ ".mp3"

/-- The `for attempt in range(max_retries)` loop for one segment.
Arguments: per-attempt outcome, segment index `i`, current attempt `a`,
remaining attempts, and the `last_error` carried so far.  Returns whether
synthesis succeeded, the final `last_error`, and the events.  A transient
failure sleeps `(attempt + 1) * 5` seconds and retries unless this was the
last attempt; a non-transient failure stops immediately. -/
def runAttempts (outc : Nat → Except String Unit) (i : Nat) :
    Nat → Nat → Option String → Bool × Option String × List TtsEv
  | _, 0, le => (false, le, [])
  | a, rem + 1, _le =>
    match outc a with
    | .ok _ => (true, _le, [.call i a])
    | .error e =>
      if isTransientErr e then
        match rem with
        | 0 => (false, some e, [.call i a])
        | rem' + 1 =>
          let r := runAttempts outc i (a + 1) (rem' + 1) (some e)
          (r.1, r.2.1, .call i a :: .slept i ((a + 1) * 5) :: r.2.2)
      else (false, some e, [.call i a])

/-- The `max_retries = 3` constant of the source. -/
def maxRetries : Nat := 3

/-- The per-segment loop of `synthesize_segments`.  Empty-text segments
are skipped before `last_error` is (re)bound.  After the attempt loop the
source appends an error entry when `last_error and len(results) <= i`.
`anyAttempted` records whether any segment ever reached the
`last_error = None` line (a Python local-binding fact the final `raise`
depends on). -/
def synthLoop (outcome : Nat → Nat → Except String Unit) (outputDir : String)
    (useCb : Bool) (total : Nat) :
    List Seg → Nat → List TtsRec → List TtsEv → Bool →
    List TtsRec × List TtsEv × Bool
  | [], _, results, evs, anyAttempted => (results, evs, anyAttempted)
  | seg :: rest, i, results, evs, anyAttempted =>
    if pyStrip seg.text.data = [] then
      synthLoop outcome outputDir useCb total rest (i + 1) results evs anyAttempted
    else
      let evs1 := evs ++ (if useCb then [TtsEv.cb i total] else [])
      let r := runAttempts (outcome i) i 0 maxRetries none
      let succ := r.1
      let lastErr := r.2.1
      let aevs := r.2.2
      let results1 :=
        if succ then results ++ [⟨seg.speaker, seg.text, i, some (segPath outputDir i), none⟩]
        else results
      let results2 :=
        if lastErr.isSome && results1.length ≤ i then
          results1 ++ [⟨seg.speaker, seg.text, i, none, lastErr⟩]
        else results1
      synthLoop outcome outputDir useCb total rest (i + 1) results2 (evs1 ++ aevs) true

/-- `synthesize_segments`: run the loop; if no entry obtained an audio
file, the source evaluates an f-string mentioning `last_error` and raises.
When at least one segment was attempted this raises the intended
`RuntimeError`; when no segment was ever attempted, `last_error` was never
bound and Python raises `UnboundLocalError` at the f-string instead. -/
def synthesize_segments (outcome : Nat → Nat → Except String Unit)
    (segs : List Seg) (outputDir : String) (provider : String) (useCb : Bool) :
    (Except (String × String) (List TtsRec)) × List TtsEv :=
  let r := synthLoop outcome outputDir useCb segs.length segs 0 [] [] false
  let results := r.1
  let evs := r.2.1
  let anyAttempted := r.2.2
  let successful := (results.filter (fun t => t.audio_path.isSome)).length
  if successful = 0 then
    if anyAttempted then
      (.error ("RuntimeError",
        "Failed to synthesize any audio segments. Check your TTS API configuration (" ++
          provider ++ ")."), evs)
    else
      (.error ("UnboundLocalError",
        "local variable referenced before assignment: last_error"), evs)
  else (.ok results, evs)

end APITTSService

/-! ### `app/services/audio_mixer.py`

`_mix_with_ffmpeg` is embedded as arithmetic over the environment-supplied
file-existence predicate and `ffprobe` durations (an `ffprobe` failure is
swallowed by the bare `except: pass` and modelled as `none`).  The pydub
fallback of `mix` is embedded through per-file millisecond lengths. -/

namespace AudioMixer

open APITTSService

/-- The result dict of a mixing call.  `concatEntries` is the file list
written for the ffmpeg concat demuxer, in order. -/
structure MixOut where
  concatEntries : List String
  durationMs : Int
  durationSeconds : ℚ
  segmentsCount : Nat
deriving Repr, DecidableEq

/-- Python `int()` on a nonnegative rational (truncation toward zero). -/
def pyInt (q : ℚ) : Int :=
  if 0 ≤ q then ⌊q⌋ else -⌊-q⌋

/-- The segment loop of `_mix_with_ffmpeg`: skip an entry whose
`audio_path` is missing or names a non-existent file; otherwise write a
pause entry (except before the very first included segment when no intro
was given), write the segment entry, and accumulate its probed duration
(`0` when `ffprobe` fails). -/
def ffmpegLoop (existsF : String → Bool) (probe : String → Option ℚ)
    (pausePath : String) (haveIntro : Bool) :
    List TtsRec → List String → Nat → ℚ → List String × Nat × ℚ
  | [], entries, added, total => (entries, added, total)
  | seg :: rest, entries, added, total =>
    match seg.audio_path with
    | none => ffmpegLoop existsF probe pausePath haveIntro rest entries added total
    | some path =>
      if existsF path then
        let entries1 :=
          if 0 < added || haveIntro then entries ++ [pausePath] else entries
        let entries2 := entries1 ++ [path]
        let total1 :=
          match probe path with
          | some d => total + d
          | none => total
        ffmpegLoop existsF probe pausePath haveIntro rest entries2 (added + 1) total1
      else ffmpegLoop existsF probe pausePath haveIntro rest entries added total

/-- `_mix_with_ffmpeg` (without background music).  `pauseMs` only
determines the duration of the generated silence file (`-t
pause_between_segments / 1000`); the reported duration is the accumulated
`total_duration` — the sum of per-segment `ffprobe` durations — not a
measurement of the concatenated output, so it does not depend on
`pauseMs` at all. -/
def mix_with_ffmpeg (existsF : String → Bool) (probe : String → Option ℚ)
    (segs : List TtsRec) (pauseMs : ℚ) (intro outro : Option String) : MixOut :=
  let haveIntro :=
    match intro with
    | some ip => existsF ip
    | none => false
  let entries0 :=
    match intro with
    | some ip => if existsF ip then [ip] else []
    | none => []
  let r := ffmpegLoop existsF probe "PAUSE" haveIntro segs entries0 0 0
  let entries1 := r.1
  let added := r.2.1
  let total := r.2.2
  let entries2 :=
    match outro with
    | some op => if existsF op then entries1 ++ ["PAUSE", op] else entries1
    | none => entries1
  { concatEntries := entries2
    durationMs := pyInt (total * 1000)
    durationSeconds := total
    segmentsCount := added }

/-- The pydub fallback of `mix` (no intro/outro/background music): the
track starts with 1000 ms of silence, each included segment is preceded by
the pause, and 500 ms of faded silence is appended; the duration is
`len(combined)`, measured from this final in-memory track. -/
def mixPydubDurationMs (existsF : String → Bool) (lenMs : String → ℚ)
    (segs : List TtsRec) (pauseMs : ℚ) : ℚ :=
  let seg :=
    segs.foldl
      (fun acc s =>
        match s.audio_path with
        | none => acc
        | some p => if existsF p then acc + pauseMs + lenMs p else acc)
      (1000 : ℚ)
  seg + 500

end AudioMixer

/-! ### `app/workers/tasks.py`, `process_episode_task`

The orchestrator is embedded as a function of an environment that fixes
the outcome of every external interaction (database row presence, memory
samples, extraction, embedding, script generation, per-attempt TTS calls,
upload, cover generation) and of the initial episode row.  It returns the
re-raised exception or the result dict, the final episode row, and a
trace of the observable events: episode status writes (job-queue metadata
mirrors of the same values are not modelled), memory samples, synthesis
attempts and sleeps.  Memory sampling is modelled as consuming a stream
`mem : Nat → ℚ` in call order, so whether and when the worker samples is
visible in the trace. -/

namespace Tasks

open APITTSService AudioMixer

/-- The `JobStatus` enumeration of `app/models`. -/
inductive JobStatus where
  | pending
  | processing
  | completed
  | failed
  | cancelled
deriving Repr, DecidableEq

/-- A raised Python exception: class name and `str(e)`. -/
structure PyExc where
  cls : String
  msg : String
deriving Repr, DecidableEq

/-- Observable events of one worker run. -/
inductive Ev where
  | statusUpd (status : JobStatus) (progress : Nat) (msg : String) (err : Option String)
  | memSample (v : ℚ)
  | synthCall (i attempt : Nat)
  | slept (secs : Nat)
deriving Repr, DecidableEq

/-- The fields of the `Episode` row that the pipeline reads or writes. -/
structure Episode where
  status : JobStatus
  progress : Nat
  status_message : Option String
  error_message : Option String
  script : Option String
  transcript : Option String
  audio_url : Option String
  cover_url : Option String
  duration_seconds : Option ℚ
  word_count : Option Nat
deriving Repr, DecidableEq

/-- A freshly created episode row. -/
def Episode.initial : Episode :=
  ⟨.pending, 0, none, none, none, none, none, none, none, none⟩

/-- The dict returned by `generate_script_sync`. -/
structure ScriptRes where
  script : String
  word_count : Nat
  parsed_segments : List Seg
deriving Repr, DecidableEq

/-- The dict returned by `process_episode_task`. -/
structure ResultSummary where
  episode_id : String
  audio_url : Option String
  cover_url : Option String
  duration_seconds : Option ℚ
  word_count : Option Nat
deriving Repr, DecidableEq

/-- Environment: every external outcome the run depends on. -/
structure Env where
  episodeExists : Bool
  psutilAvailable : Bool
  torchAvailable : Bool
  mem : Nat → ℚ
  extraction : Except PyExc String
  chunkEmbed : Except PyExc Unit
  scriptGen : Except PyExc ScriptRes
  ttsOutcome : Nat → Nat → Except String Unit
  ttsProvider : String
  pydubAvailable : Bool
  ffmpegAvailable : Bool
  fileExists : String → Bool
  probe : String → Option ℚ
  audioLenMs : String → ℚ
  uploadAudio : Except String String
  coverGen : Except PyExc (Option String)
  uploadCover : Except String String
  generateCover : Bool

/-- Worker-run state: the episode row, the event trace, and the position
in the memory-sample stream. -/
structure St where
  ep : Episode
  trace : List Ev
  memCtr : Nat
deriving Repr

/-- `update_episode_status` (the database-success path): write status,
progress and message; overwrite `error_message` only when the `error`
argument is truthy (a non-`None`, non-empty string). -/
def update_episode_status (st : St) (s : JobStatus) (p : Nat) (msg : String)
    (err : Option String) : St :=
  { st with
    ep :=
      { st.ep with
        status := s
        progress := p
        status_message := some msg
        error_message :=
          match err with
          | some e => if e = "" then st.ep.error_message else some e
          | none => st.ep.error_message }
    trace := st.trace ++ [.statusUpd s p msg err] }

/-- Draw the next value from the memory-sample stream. -/
def sampleSt (env : Env) (st : St) : ℚ × St :=
  (env.mem st.memCtr,
    { st with
      memCtr := st.memCtr + 1
      trace := st.trace ++ [.memSample (env.mem st.memCtr)] })

/-- The message of the initial memory guardrail (`:.1f` float formatting
is modelled as plain rational printing). -/
def memHighStartMsg (p mb : ℚ) : String :=
  "System memory too high (" ++ toString p ++ "%), current process using " ++
    toString mb ++ "MB. Please retry later or restart worker."

/-- The message of the pre-script-generation memory check. -/
def memHighScriptMsg (p : ℚ) : String :=
  "System memory too high (" ++ toString p ++
    "%) before script generation. Worker may crash. Please retry later."

/-- Replay the TTS progress callbacks and attempt events onto the run
state.  The callback writes episode status
`55 + int(completed / total * 20)` with message
`"Synthesizing segment {i+1}/{total}"`. -/
def applyTtsEvents (st : St) (evs : List TtsEv) : St :=
  evs.foldl
    (fun st ev =>
      match ev with
      | .cb i total =>
        update_episode_status st .processing (55 + (i * 20) / total)
          ("Synthesizing segment " ++ toString (i + 1) ++ "/" ++ toString total) none
      | .call i a => { st with trace := st.trace ++ [.synthCall i a] }
      | .slept _ s => { st with trace := st.trace ++ [.slept s] })
    st

/-- `AudioMixer.mix` as invoked by `mix_audio_sync`
(`pause_between_segments = 400`, no intro/outro/music): raise when pydub
is missing, use the ffmpeg streaming path when ffmpeg is available,
otherwise the pydub in-memory fallback (whose duration is measured from
the assembled track).  Subprocess failures of the ffmpeg path are not
modelled. -/
def mixerMix (env : Env) (segs : List TtsRec) : Except PyExc MixOut :=
  if !env.pydubAvailable then
    .error ⟨"RuntimeError", "pydub not installed. Run: pip install pydub"⟩
  else if env.ffmpegAvailable then
    .ok (mix_with_ffmpeg env.fileExists env.probe segs 400 none none)
  else
    let d := mixPydubDurationMs env.fileExists env.audioLenMs segs 400
    .ok
      { concatEntries := []
        durationMs := pyInt d
        durationSeconds := pyInt d / 1000
        segmentsCount := ((segs.filterMap (fun s => s.audio_path)).filter env.fileExists).length }

/-- Step 4 and 5 of the pipeline (speech synthesis, mixing, upload),
wrapped in the `except Exception as audio_error` handler: any failure
inside the block leaves `audio_url` untouched and records the
`"Script ready (audio unavailable)"` checkpoint instead.  The Boolean is
`audio_available`.  Voice selection only affects the API request payload
and is invisible here. -/
def stageAudio (env : Env) (epId : String) (sr : ScriptRes) (st : St) : St × Bool :=
  let st1 := update_episode_status st .processing 55 "Generating audio" none
  if sr.parsed_segments = [] then
    (update_episode_status st1 .processing 90 "Script ready (audio unavailable)" none, false)
  else
    let outDir := "output/" ++ epId ++ "/segments"
    let r := synthesize_segments env.ttsOutcome sr.parsed_segments outDir env.ttsProvider true
    let st2 := applyTtsEvents st1 r.2
    match r.1 with
    | .error _ =>
      (update_episode_status st2 .processing 90 "Script ready (audio unavailable)" none, false)
    | .ok recs =>
      let st3 := update_episode_status st2 .processing 80 "Mixing audio" none
      match mixerMix env recs with
      | .error _ =>
        (update_episode_status st3 .processing 90 "Script ready (audio unavailable)" none, false)
      | .ok mres =>
        let audioUrl :=
          match env.uploadAudio with
          | .ok url => url
          | .error _ => "/api/v1/export/" ++ epId ++ "/audio"
        ({ st3 with
            ep :=
              { st3.ep with
                audio_url := some audioUrl
                duration_seconds := some mres.durationSeconds } }, true)

/-- Step 6 (optional cover), wrapped in its own handler: a failing or
`None`-returning generator leaves `cover_url` untouched; an upload
failure falls back to the local export route. -/
def stageCover (env : Env) (epId : String) (st : St) : St :=
  if env.generateCover then
    let st1 := update_episode_status st .processing 92 "Creating cover" none
    match env.coverGen with
    | .error _ => st1
    | .ok none => st1
    | .ok (some _) =>
      match env.uploadCover with
      | .ok url => { st1 with ep := { st1.ep with cover_url := some url } }
      | .error _ =>
        { st1 with ep := { st1.ep with cover_url := some ("/api/v1/export/" ++ epId ++ "/cover") } }
  else st

/-- The post-job memory log (lines 363–377): two further samples when
psutil is importable, no effect otherwise. -/
def endOfJobLog (env : Env) (st : St) : St :=
  if env.psutilAvailable then ((sampleSt env (sampleSt env st).2).2) else st

/-- The `finally` cleanup block: it starts by importing torch, so a
missing torch (or psutil, through `get_memory_usage_mb`) silently skips
the whole block; otherwise it samples memory before and after collection.
File deletion has no model-visible effect. -/
def cleanupFinally (env : Env) (st : St) : St :=
  if env.torchAvailable && env.psutilAvailable then
    ((sampleSt env (sampleSt env st).2).2)
  else st

/-- Store the generated script on the episode row (truncated at 50 kB)
together with the word count. -/
def recordScript (sr : ScriptRes) (st : St) : St :=
  { st with
    ep :=
      { st.ep with
        script := some
          (if 50000 < sr.script.length then
            sr.script.take 50000 ++ "\n\n[Script truncated due to length]"
          else sr.script)
        word_count := some sr.word_count } }

/-- `episode.transcript = episode.script` after the audio block. -/
def recordTranscript (st : St) : St :=
  { st with ep := { st.ep with transcript := st.ep.script } }

/-- Script generation and everything after it (reached once the
pre-script memory check has passed). -/
def scriptAndOn (env : Env) (epId : String) (st : St) :
    Except PyExc ResultSummary × St :=
  match env.scriptGen with
  | .error e => (.error e, st)
  | .ok sr =>
    let st2 := update_episode_status (recordScript sr st) .processing 50 "Script ready" none
    let st4 := recordTranscript (stageAudio env epId sr st2).1
    let st6 := update_episode_status (stageCover env epId st4) .completed 100
      "Episode generated successfully" none
    let res : ResultSummary :=
      ⟨epId, st6.ep.audio_url, st6.ep.cover_url, st6.ep.duration_seconds, st6.ep.word_count⟩
    (.ok res, endOfJobLog env st6)

/-- The body of the big `try`: status checkpoints, extraction, chunking
and embedding, the pre-script memory check (fail high, with an extra
post-collection sample when the process footprint exceeds 450 MB), then
`scriptAndOn`. -/
def tryBody (env : Env) (epId : String) (st : St) :
    Except PyExc ResultSummary × St :=
  if !env.episodeExists then
    (.error ⟨"ValueError", "Episode not found: " ++ epId⟩, st)
  else
    let st1 := update_episode_status st .processing 0 "Starting processing pipeline" none
    let st2 := update_episode_status st1 .processing 5 "Extracting content" none
    match env.extraction with
    | .error e => (.error e, st2)
    | .ok _content =>
      let st3 := update_episode_status st2 .processing 10 "Content extracted" none
      let st4 := update_episode_status st3 .processing 15 "Creating embeddings" none
      match env.chunkEmbed with
      | .error e => (.error e, st4)
      | .ok _ =>
        let st5 := update_episode_status st4 .processing 30 "Embeddings stored" none
        let st6 := update_episode_status st5 .processing 35 "Generating script" none
        if env.psutilAvailable then
          let r1 := sampleSt env st6
          let mb := r1.1
          let r2 := sampleSt env r1.2
          let p := r2.1
          if 90 < p then (.error ⟨"RuntimeError", memHighScriptMsg p⟩, r2.2)
          else
            let st7 := if 450 < mb then (sampleSt env r2.2).2 else r2.2
            scriptAndOn env epId st7
        else scriptAndOn env epId st6

/-- The `try/except/finally` around the body: a raised exception sets the
episode to FAILED at progress 0 with message `"Processing failed"` and
`error_message = str(e)` (left unchanged when `str(e)` is empty, since
`update_episode_status` tests the string for truthiness), and is
re-raised; the cleanup block runs on both paths. -/
def runBody (env : Env) (epId : String) (st : St) :
    Except PyExc ResultSummary × St :=
  let r := tryBody env epId st
  let st1 :=
    match r.1 with
    | .ok _ => r.2
    | .error e => update_episode_status r.2 .failed 0 "Processing failed" (some e.msg)
  (r.1, cleanupFinally env st1)

/-- `process_episode_task`: the initial memory guardrail runs before the
`try` (and before any status write), raising `RuntimeError` when system
memory exceeds 85 %; then the guarded body. -/
def process_episode_task (env : Env) (epId : String) (ep0 : Episode) :
    Except PyExc ResultSummary × St :=
  let st0 : St := ⟨ep0, [], 0⟩
  if env.psutilAvailable then
    let r1 := sampleSt env st0
    let p := r1.1
    let r2 := sampleSt env r1.2
    let mb := r2.1
    if 85 < p then (.error ⟨"RuntimeError", memHighStartMsg p mb⟩, r2.2)
    else runBody env epId r2.2
  else runBody env epId st0

/-- Detector for the `"Script ready"` checkpoint (progress 50, written
right after script generation). -/
def isScriptReadyUpd : Ev → Bool
  | .statusUpd .processing 50 m none => m = "Script ready"
  | _ => false

/-- Detector for synthesis attempts in the trace. -/
def isSynthCallEv : Ev → Bool
  | .synthCall _ _ => true
  | _ => false

/-- Detector for memory samples in the trace. -/
def isMemSampleEv : Ev → Bool
  | .memSample _ => true
  | _ => false

/-- Whether the trace contains a memory sample after the
`"Script ready"` checkpoint and before the first synthesis attempt —
i.e. whether the worker sampled memory immediately before the
speech-synthesis stage. -/
def sampledBeforeSynthesis (t : List Ev) : Bool :=
  (((t.dropWhile (fun e => !isScriptReadyUpd e)).takeWhile
      (fun e => !isSynthCallEv e)).any isMemSampleEv)

end Tasks

/-! ### Concrete inputs used by the witnesses and counterexamples -/

/-- The concrete scenario text fixed by the specification (§8). -/
def drText : List Char :=
  "Dr. Smith arrived. He said hello. It was a beautiful day in the city and everyone smiled warmly at the bright morning sun.".data

/-- A text whose first produced chunk is short and non-final: a tiny
first sentence followed by a sentence longer than the target size. -/
def shortLongText : List Char :=
  "Hi all. This sentence is long enough to exceed five tokens easily.".data

/-- An environment for a run in which every external step succeeds except
speech synthesis, where every call times out. -/
def envTtsAllFail : Tasks.Env where
  episodeExists := true
  psutilAvailable := false
  torchAvailable := false
  mem := fun _ => 0
  extraction := .ok "some content"
  chunkEmbed := .ok ()
  scriptGen := .ok ⟨"HOST: Hello there", 3, [⟨"Host", "Hello there"⟩]⟩
  ttsOutcome := fun _ _ => .error "timeout"
  ttsProvider := "google"
  pydubAvailable := true
  ffmpegAvailable := true
  fileExists := fun _ => true
  probe := fun _ => some 3
  audioLenMs := fun _ => 3000
  uploadAudio := .ok "http://bucket/audio.mp3"
  coverGen := .ok none
  uploadCover := .ok "http://bucket/cover.png"
  generateCover := false

/-- An environment whose extraction step raises an exception with an
empty message. -/
def envExtractEmptyMsg : Tasks.Env :=
  { envTtsAllFail with extraction := .error ⟨"ValueError", ""⟩ }

/-- An environment whose extraction step raises an exception with a
non-empty message. -/
def envExtractFail : Tasks.Env :=
  { envTtsAllFail with extraction := .error ⟨"ConnectionError", "network unreachable"⟩ }

/-- An environment in which memory pressure is low when sampled at the
start and before script generation, but high (99 %) from then on — in
particular at the moment speech synthesis begins.  Synthesis attempts
fail with a non-transient error, so the stage runs (and degrades) without
ever reaching mixing. -/
def envHighMemAtSynth : Tasks.Env :=
  { envTtsAllFail with
    psutilAvailable := true
    ttsOutcome := fun _ _ => .error "boom"
    mem := fun n =>
      if n = 0 then 50 else if n = 1 then 100 else
      if n = 2 then 100 else if n = 3 then 50 else 99 }

/-- An environment whose very first memory sample is above the 85 %
high-water mark. -/
def envGuardTrip : Tasks.Env :=
  { envTtsAllFail with psutilAvailable := true, mem := fun _ => 95 }

/-- An environment that passes the start guard but reports 99 % system
memory at the pre-script check. -/
def envGuardScript : Tasks.Env :=
  { envTtsAllFail with
    psutilAvailable := true
    mem := fun n => if n ≤ 2 then 50 else 99 }

/-! ## Theorems -/

set_option maxRecDepth 100000

set_option maxHeartbeats 2000000

namespace TextChunker

lemma pyStrip_eq_nil {l : List Char} (h : l.all isPySpace = true) : pyStrip l = [] := by
  unfold pyStrip
  have h1 : l.dropWhile isPySpace = [] := by
    rw [List.dropWhile_eq_nil_iff]
    intro a ha
    exact List.all_eq_true.mp h a ha
  simp [h1]

lemma filterLoop_mem {α : Type} (p : Params) (total : Nat) (meta : α) :
    ∀ (l : List (List Char)) (n : Nat) (c : Chunk α),
      c ∈ filterLoop p total meta n l ↔
        ∃ j, ∃ hj : j < l.length,
          p.min_chunk_size ≤ estimate_tokens (l.get ⟨j, hj⟩) ∧
            c = ⟨l.get ⟨j, hj⟩, n + j, estimate_tokens (l.get ⟨j, hj⟩), ⟨meta, n + j, total⟩⟩ := by
  intro l
  induction l with
  | nil =>
    intro n c
    simp [filterLoop]
  | cons t rest ih =>
    intro n c
    simp only [filterLoop]
    by_cases hmin : p.min_chunk_size ≤ estimate_tokens t
    · rw [if_pos hmin]
      simp only [List.mem_cons]
      constructor
      · rintro (rfl | hc)
        · exact ⟨0, by simp, by simpa using hmin, by simp⟩
        · obtain ⟨j, hj, hle, rfl⟩ := (ih (n + 1) c).mp hc
          refine ⟨j + 1, by simpa using hj, by simpa using hle, ?_⟩
          simp [Nat.add_assoc, Nat.add_comm 1 j]
      · rintro ⟨j, hj, hle, rfl⟩
        match j with
        | 0 => exact Or.inl (by simpa using rfl)
        | j + 1 =>
          refine Or.inr ((ih (n + 1) _).mpr ⟨j, by simpa using hj, by simpa using hle, ?_⟩)
          simp [Nat.add_assoc, Nat.add_comm 1 j]
    · rw [if_neg hmin]
      rw [ih (n + 1) c]
      constructor
      · rintro ⟨j, hj, hle, rfl⟩
        refine ⟨j + 1, by simpa using hj, by simpa using hle, ?_⟩
        simp [Nat.add_assoc, Nat.add_comm 1 j]
      · rintro ⟨j, hj, hle, rfl⟩
        match j with
        | 0 => exact absurd (by simpa using hle) hmin
        | j + 1 =>
          refine ⟨j, by simpa using hj, by simpa using hle, ?_⟩
          simp [Nat.add_assoc, Nat.add_comm 1 j]

lemma filterLoop_index_ge {α : Type} (p : Params) (total : Nat) (meta : α)
    (l : List (List Char)) (n : Nat) (c : Chunk α)
    (hc : c ∈ filterLoop p total meta n l) : n ≤ c.index := by
  obtain ⟨j, hj, _, rfl⟩ := (filterLoop_mem p total meta l n c).mp hc
  exact Nat.le_add_right n j

lemma filterLoop_pairwise {α : Type} (p : Params) (total : Nat) (meta : α) :
    ∀ (l : List (List Char)) (n : Nat),
      (filterLoop p total meta n l).Pairwise (fun a b => a.index < b.index) := by
  intro l
  induction l with
  | nil =>
    intro n
    simp [filterLoop]
  | cons t rest ih =>
    intro n
    simp only [filterLoop]
    by_cases hmin : p.min_chunk_size ≤ estimate_tokens t
    · rw [if_pos hmin]
      refine List.Pairwise.cons ?_ (ih (n + 1))
      intro b hb
      have := filterLoop_index_ge p total meta rest (n + 1) b hb
      show n < b.index
      omega
    · rw [if_neg hmin]
      exact ih (n + 1)

lemma filterLoop_eq_of_all {α : Type} (p : Params) (total : Nat) (meta : α) :
    ∀ (l : List (List Char)) (n : Nat),
      (∀ t ∈ l, p.min_chunk_size ≤ estimate_tokens t) →
      filterLoop p total meta n l =
        ((List.range' n l.length).zip l).map
          (fun it => ⟨it.2, it.1, estimate_tokens it.2, ⟨meta, it.1, total⟩⟩) := by
  intro l
  induction l with
  | nil =>
    intro n _
    simp [filterLoop]
  | cons t rest ih =>
    intro n hall
    have hmin : p.min_chunk_size ≤ estimate_tokens t := hall t (by simp)
    have hrest := ih (n + 1) (fun u hu => hall u (by simp [hu]))
    simp [filterLoop, if_pos hmin, List.range'_succ, hrest]

lemma filterLoop_all_kept {α : Type} (p : Params) (total : Nat) (meta : α)
    (l : List (List Char)) (n : Nat)
    (hall : ∀ t ∈ l, p.min_chunk_size ≤ estimate_tokens t) :
    ∀ i, ∀ hi : i < (filterLoop p total meta n l).length,
      ((filterLoop p total meta n l).get ⟨i, hi⟩).index = n + i := by
  intro i
  rw [filterLoop_eq_of_all p total meta l n hall]
  intro hi
  have hi' : i < ((List.range' n l.length).zip l).length := by
    simpa using hi
  have hlen : i < l.length := by
    simp [List.length_zip] at hi'
    omega
  simp [List.get_eq_getElem, List.getElem_map, List.getElem_zip, List.getElem_range']

/-- **C9.**  `TextChunker.chunk` returns the empty list — no chunks and no
error — on any input that is empty or contains only whitespace, for every
parameter choice and metadata argument. -/
theorem chunk_whitespace_eq_nil {α : Type} (p : Params) (meta : α)
    (text : List Char) (h : text.all isPySpace = true) :
    chunk p text meta = [] := by
  unfold chunk
  simp [pyStrip_eq_nil h]

/-- Witness for `chunk_whitespace_eq_nil` at a concrete whitespace-only
string and concrete parameters. -/
theorem chunk_whitespace_eq_nil_witness :
    ("  \t \n ".data.all isPySpace = true) ∧
      chunk ⟨512, 50, 100⟩ "  \t \n ".data (0 : Nat) = [] :=
  ⟨by decide, chunk_whitespace_eq_nil ⟨512, 50, 100⟩ 0 "  \t \n ".data (by decide)⟩

/-- **C4, counterexample.**  The claim says only a *final* produced chunk
can be dropped.  On `shortLongText` with `chunk_size = 5`,
`chunk_overlap = 0`, `min_chunk_size = 3`, six chunks are produced, the
first (`"Hi all"`, token estimate 1, not final) is dropped from the
output along with other non-final chunks. -/
theorem chunk_drops_nonfinal_cex :
    (produced_chunks ⟨5, 0, 3⟩ shortLongText).length = 6 ∧
      (produced_chunks ⟨5, 0, 3⟩ shortLongText)[0]? = some "Hi all".data ∧
      (chunk ⟨5, 0, 3⟩ shortLongText (0 : Nat)).map (fun c => c.content) =
        ["This sentence".data, "tokens easily.".data] ∧
      ¬ "Hi all".data ∈ (chunk ⟨5, 0, 3⟩ shortLongText (0 : Nat)).map (fun c => c.content) := by
  decide

/-- **C4, amended.**  A produced chunk is dropped from the output exactly
when its token estimate is below `min_chunk_size`, regardless of its
position: the `i`-th produced chunk appears in the output (with its text
and with index `i`) iff its estimate reaches `min_chunk_size`. -/
theorem chunk_drop_iff_below_min {α : Type} (p : Params) (meta : α)
    (text : List Char) (i : Nat)
    (hi : i < (produced_chunks p text).length) (hne : pyStrip text ≠ []) :
    (∃ c ∈ chunk p text meta,
        c.index = i ∧ c.content = (produced_chunks p text).get ⟨i, hi⟩) ↔
      p.min_chunk_size ≤ estimate_tokens ((produced_chunks p text).get ⟨i, hi⟩) := by
  unfold chunk
  by_cases hg : (text = [] || pyStrip text = []) = true
  · exfalso
    have hg' : text = [] ∨ pyStrip text = [] := by simpa using hg
    rcases hg' with h | h
    · exact hne (by rw [h]; rfl)
    · exact hne h
  · rw [Bool.not_eq_true] at hg
    rw [hg]
    simp only [Bool.false_eq_true, if_false]
    revert hi
    generalize produced_chunks p text = L
    intro hi
    constructor
    · rintro ⟨c, hc, hidx, hcontent⟩
      obtain ⟨j, hj, hle, rfl⟩ := (filterLoop_mem p L.length meta L 0 c).mp hc
      have hji : j = i := by simpa using hidx
      subst hji
      exact hle
    · intro hle
      exact ⟨⟨L.get ⟨i, hi⟩, 0 + i, estimate_tokens (L.get ⟨i, hi⟩),
        ⟨meta, 0 + i, L.length⟩⟩,
        (filterLoop_mem p L.length meta L 0 _).mpr ⟨i, hi, hle, rfl⟩, by simp, rfl⟩

/-- Witness for `chunk_drop_iff_below_min`: in the spec scenario every
produced chunk reaches `min_chunk_size = 1`, and the theorem (applied at
`i = 0`) yields the membership of the first produced chunk. -/
theorem chunk_drop_iff_below_min_witness :
    (0 < (produced_chunks ⟨12, 4, 1⟩ drText).length ∧ pyStrip drText ≠ []) ∧
      ∃ h0 : 0 < (produced_chunks ⟨12, 4, 1⟩ drText).length,
        ∃ c ∈ chunk ⟨12, 4, 1⟩ drText (0 : Nat),
          c.index = 0 ∧ c.content = (produced_chunks ⟨12, 4, 1⟩ drText).get ⟨0, h0⟩ :=
  ⟨⟨by decide, by decide⟩, by decide,
    (chunk_drop_iff_below_min ⟨12, 4, 1⟩ (0 : Nat) drText 0 (by decide) (by decide)).mpr
      (by decide)⟩

/-- **C5, counterexample.**  The claim says the returned chunks carry
indices contiguous from 0 equal to their positions.  With
`min_chunk_size = 2` on `shortLongText`, four chunks are returned with
indices `[1, 3, 4, 5]`, which is not `[0, 1, 2, 3]`. -/
theorem chunk_indices_not_positions_cex :
    (chunk ⟨5, 0, 2⟩ shortLongText (0 : Nat)).map (fun c => c.index) = [1, 3, 4, 5] ∧
      ¬ (chunk ⟨5, 0, 2⟩ shortLongText (0 : Nat)).map (fun c => c.index) =
          List.range (chunk ⟨5, 0, 2⟩ shortLongText (0 : Nat)).length := by
  decide

/-- **C5, amended.**  The indices carried by the returned chunks address
positions in the *pre-filter* produced sequence: every returned chunk's
content is the produced chunk at its index, indices are strictly
increasing, and when no produced chunk falls below `min_chunk_size` the
`i`-th returned chunk has index `i`. -/
theorem chunk_index_semantics {α : Type} (p : Params) (meta : α) (text : List Char) :
    (∀ c ∈ chunk p text meta,
        ∃ hc : c.index < (produced_chunks p text).length,
          c.content = (produced_chunks p text).get ⟨c.index, hc⟩) ∧
      (chunk p text meta).Pairwise (fun a b => a.index < b.index) ∧
      ((∀ t ∈ produced_chunks p text, p.min_chunk_size ≤ estimate_tokens t) →
        ∀ i, ∀ hi : i < (chunk p text meta).length,
          ((chunk p text meta).get ⟨i, hi⟩).index = i) := by
  unfold chunk
  by_cases hg : (text = [] || pyStrip text = []) = true
  · rw [hg]
    refine ⟨by simp, by simp, ?_⟩
    intro _ i hi
    simp at hi
  · rw [Bool.not_eq_true] at hg
    rw [hg]
    simp only [Bool.false_eq_true, if_false]
    refine ⟨?_, filterLoop_pairwise p _ meta _ 0, ?_⟩
    · intro c hc
      obtain ⟨j, hj, _, rfl⟩ :=
        (filterLoop_mem p (produced_chunks p text).length meta _ 0 c).mp hc
      exact ⟨by simpa using hj, by simp⟩
    · intro hall i hi
      simpa using filterLoop_all_kept p _ meta _ 0 hall i hi

/-- Witness for `chunk_index_semantics`: in the spec scenario no produced
chunk is dropped, and the second returned chunk indeed has index 1. -/
theorem chunk_index_semantics_witness :
    (∀ t ∈ produced_chunks ⟨12, 4, 1⟩ drText, 1 ≤ estimate_tokens t) ∧
      ∃ hi : 1 < (chunk ⟨12, 4, 1⟩ drText (0 : Nat)).length,
        ((chunk ⟨12, 4, 1⟩ drText (0 : Nat)).get ⟨1, hi⟩).index = 1 :=
  ⟨by decide, by decide,
    (chunk_index_semantics ⟨12, 4, 1⟩ (0 : Nat) drText).2.2 (by decide) 1 (by decide)⟩

/-- **C8, counterexample.**  In the spec scenario the second chunk is the
first piece of the forced word-boundary split of the over-long third
sentence; it does *not* begin with the overlap tail of the first chunk
(which would be `"He said hello"`, the only trailing sentence of the
first chunk fitting in `chunk_overlap = 4`). -/
theorem chunk_scenario_no_overlap_cex :
    ((chunk ⟨12, 4, 1⟩ drText (0 : Nat)).map (fun c => c.content))[0]? =
        some "Dr. Smith arrived He said hello".data ∧
      ((chunk ⟨12, 4, 1⟩ drText (0 : Nat)).map (fun c => c.content))[1]? =
        some "It was a beautiful day".data ∧
      get_overlap_sentences ⟨12, 4, 1⟩ ["Dr. Smith arrived".data, "He said hello".data] =
        ["He said hello".data] ∧
      "He said hello".data.isPrefixOf "It was a beautiful day".data = false := by
  decide

/-- **C8, amended.**  On the spec's concrete scenario the `"Dr."` period
is indeed protected (the text splits into exactly three sentences, the
first being `"Dr. Smith arrived"`), and the output has five chunks: the
first combines the two short sentences; the remaining four are the forced
word-boundary split of the third sentence (their space-join restores it),
with no overlap carried from the first chunk into the second. -/
theorem chunk_scenario :
    split_sentences (clean_text drText) =
        ["Dr. Smith arrived".data, "He said hello".data,
          "It was a beautiful day in the city and everyone smiled warmly at the bright morning sun.".data] ∧
      (chunk ⟨12, 4, 1⟩ drText (0 : Nat)).map (fun c => c.content) =
        ["Dr. Smith arrived He said hello".data, "It was a beautiful day".data,
          "in the city and everyone".data, "smiled warmly at the bright morning".data,
          "sun.".data] ∧
      joinSp ["It was a beautiful day".data, "in the city and everyone".data,
          "smiled warmly at the bright morning".data, "sun.".data] =
        "It was a beautiful day in the city and everyone smiled warmly at the bright morning sun.".data := by
  decide

end TextChunker

namespace APITTSService

lemma runAttempts_fail (outc : Nat → Except String Unit) (i : Nat)
    (h : ∀ a, ∃ e, outc a = .error e) :
    ∀ rem a le, (runAttempts outc i a rem le).1 = false := by
  intro rem
  induction rem with
  | zero =>
    intro a le
    rfl
  | succ rem ih =>
    intro a le
    obtain ⟨e, he⟩ := h a
    rw [runAttempts.eq_def]
    simp only [he]
    by_cases ht : isTransientErr e = true
    · rw [if_pos ht]
      match rem with
      | 0 => rfl
      | rem' + 1 => simpa using ih (a + 1) (some e)
    · rw [if_neg ht]

lemma runAttempts_lastErr_isSome (outc : Nat → Except String Unit) (i : Nat)
    (h : ∀ a, ∃ e, outc a = .error e) :
    ∀ rem a le, 1 ≤ rem → ((runAttempts outc i a rem le).2.1).isSome = true := by
  intro rem
  induction rem with
  | zero =>
    intro a le hrem
    omega
  | succ rem ih =>
    intro a le _
    obtain ⟨e, he⟩ := h a
    rw [runAttempts.eq_def]
    simp only [he]
    by_cases ht : isTransientErr e = true
    · rw [if_pos ht]
      match rem with
      | 0 => rfl
      | rem' + 1 => simpa using ih (a + 1) (some e) (by omega)
    · rw [if_neg ht]
      rfl

lemma synthLoop_flag_true (outcome : Nat → Nat → Except String Unit)
    (od : String) (cb : Bool) (tot : Nat) :
    ∀ segs i results evs, (synthLoop outcome od cb tot segs i results evs true).2.2 = true := by
  intro segs
  induction segs with
  | nil =>
    intro i results evs
    rfl
  | cons seg rest ih =>
    intro i results evs
    simp only [synthLoop]
    by_cases hskip : pyStrip seg.text.data = []
    · rw [if_pos hskip]
      exact ih (i + 1) results evs
    · rw [if_neg hskip]
      exact ih (i + 1) _ _

lemma synthLoop_attempted (outcome : Nat → Nat → Except String Unit)
    (od : String) (cb : Bool) (tot : Nat) :
    ∀ segs i results evs b, (∃ s ∈ segs, pyStrip s.text.data ≠ []) →
      (synthLoop outcome od cb tot segs i results evs b).2.2 = true := by
  intro segs
  induction segs with
  | nil =>
    intro i results evs b hex
    simp at hex
  | cons seg rest ih =>
    intro i results evs b hex
    simp only [synthLoop]
    by_cases hskip : pyStrip seg.text.data = []
    · rw [if_pos hskip]
      refine ih (i + 1) results evs b ?_
      obtain ⟨s, hs, hne⟩ := hex
      rcases List.mem_cons.mp hs with rfl | hs'
      · exact absurd hskip hne
      · exact ⟨s, hs', hne⟩
    · rw [if_neg hskip]
      exact synthLoop_flag_true outcome od cb tot rest (i + 1) _ _

lemma synthLoop_all_none (outcome : Nat → Nat → Except String Unit)
    (od : String) (cb : Bool) (tot : Nat)
    (h : ∀ i a, ∃ e, outcome i a = .error e) :
    ∀ segs i results evs b, (∀ r ∈ results, r.audio_path = none) →
      ∀ r ∈ (synthLoop outcome od cb tot segs i results evs b).1, r.audio_path = none := by
  intro segs
  induction segs with
  | nil =>
    intro i results evs b hres r hr
    exact hres r hr
  | cons seg rest ih =>
    intro i results evs b hres
    simp only [synthLoop]
    by_cases hskip : pyStrip seg.text.data = []
    · rw [if_pos hskip]
      exact ih (i + 1) results evs b hres
    · rw [if_neg hskip]
      have hfail := runAttempts_fail (outcome i) i (h i) maxRetries 0 none
      simp only [hfail, Bool.false_eq_true, if_false]
      refine ih (i + 1) _ _ true ?_
      intro r hr
      by_cases hcond :
          ((runAttempts (outcome i) i 0 maxRetries none).2.1.isSome &&
            decide (results.length ≤ i)) = true
      · rw [if_pos hcond] at hr
        rcases List.mem_append.mp hr with hr' | hr'
        · exact hres r hr'
        · simp at hr'
          rw [hr']
      · rw [if_neg hcond] at hr
        exact hres r hr

/-- **C10, counterexample.**  The claim says a call in which zero segments
obtain an audio file raises a *RuntimeError*.  When no segment is ever
attempted (here: the only segment has empty text), the Python local
`last_error` was never bound, and evaluating the f-string of the `raise`
statement raises `UnboundLocalError` instead. -/
theorem synthesize_segments_unbound_local_cex :
    (synthesize_segments (fun _ _ => .error "boom") [⟨"Host", ""⟩] "od" "google" false).1 =
        .error ("UnboundLocalError", "local variable referenced before assignment: last_error") ∧
      ("UnboundLocalError" : String) ≠ "RuntimeError" := by
  decide

/-- **C10, amended.**  `synthesize_segments` never returns a result list
in which every entry has a null audio path: a returned list contains an
entry with an audio file.  When every synthesis call fails the function
raises instead of returning — with class `RuntimeError` whenever at least
one segment has non-empty text (so the retry loop ran), and with
`UnboundLocalError` in the degenerate case where no segment was ever
attempted. -/
theorem synthesize_segments_zero_success_raises :
    (∀ (outcome : Nat → Nat → Except String Unit) (segs : List Seg)
        (od prov : String) (cb : Bool) (lst : List TtsRec),
        (synthesize_segments outcome segs od prov cb).1 = .ok lst →
          ∃ r ∈ lst, r.audio_path.isSome = true) ∧
      (∀ (outcome : Nat → Nat → Except String Unit) (segs : List Seg)
          (od prov : String) (cb : Bool),
          (∀ i a, ∃ e, outcome i a = .error e) →
            ∃ en, (synthesize_segments outcome segs od prov cb).1 = .error en) ∧
      (∀ (outcome : Nat → Nat → Except String Unit) (segs : List Seg)
          (od prov : String) (cb : Bool),
          (∀ i a, ∃ e, outcome i a = .error e) →
            (∃ s ∈ segs, pyStrip s.text.data ≠ []) →
              ∃ msg, (synthesize_segments outcome segs od prov cb).1 =
                .error ("RuntimeError", msg)) := by
  refine ⟨?_, ?_, ?_⟩
  · intro outcome segs od prov cb lst hok
    unfold synthesize_segments at hok
    by_cases hz :
        (((synthLoop outcome od cb segs.length segs 0 [] [] false).1.filter
          (fun t => t.audio_path.isSome)).length = 0)
    · rw [if_pos hz] at hok
      by_cases ha : (synthLoop outcome od cb segs.length segs 0 [] [] false).2.2 = true
      · rw [if_pos ha] at hok
        exact absurd hok (by simp)
      · rw [if_neg ha] at hok
        exact absurd hok (by simp)
    · rw [if_neg hz] at hok
      have hlst : (synthLoop outcome od cb segs.length segs 0 [] [] false).1 = lst := by
        simpa using hok
      have hne : ((synthLoop outcome od cb segs.length segs 0 [] [] false).1.filter
          (fun t => t.audio_path.isSome)) ≠ [] := by
        intro hnil
        exact hz (by rw [hnil]; rfl)
      obtain ⟨r, hr⟩ := List.exists_mem_of_ne_nil _ hne
      have := List.mem_filter.mp hr
      exact ⟨r, by rw [← hlst]; exact this.1, by simpa using this.2⟩
  · intro outcome segs od prov cb hfail
    unfold synthesize_segments
    have hnone := synthLoop_all_none outcome od cb segs.length hfail segs 0 [] [] false
      (by simp)
    have hz : (((synthLoop outcome od cb segs.length segs 0 [] [] false).1.filter
        (fun t => t.audio_path.isSome)).length = 0) := by
      have : ((synthLoop outcome od cb segs.length segs 0 [] [] false).1.filter
          (fun t => t.audio_path.isSome)) = [] := by
        rw [List.filter_eq_nil]
        intro r hr
        simp [hnone r hr]
      rw [this]
      rfl
    rw [if_pos hz]
    by_cases ha : (synthLoop outcome od cb segs.length segs 0 [] [] false).2.2 = true
    · rw [if_pos ha]
      exact ⟨_, rfl⟩
    · rw [if_neg ha]
      exact ⟨_, rfl⟩
  · intro outcome segs od prov cb hfail hex
    unfold synthesize_segments
    have hnone := synthLoop_all_none outcome od cb segs.length hfail segs 0 [] [] false
      (by simp)
    have hz : (((synthLoop outcome od cb segs.length segs 0 [] [] false).1.filter
        (fun t => t.audio_path.isSome)).length = 0) := by
      have : ((synthLoop outcome od cb segs.length segs 0 [] [] false).1.filter
          (fun t => t.audio_path.isSome)) = [] := by
        rw [List.filter_eq_nil]
        intro r hr
        simp [hnone r hr]
      rw [this]
      rfl
    rw [if_pos hz, if_pos (synthLoop_attempted outcome od cb segs.length segs 0 [] [] false hex)]
    exact ⟨_, rfl⟩

/-- Witness for `synthesize_segments_zero_success_raises`: a run in which
the only segment synthesizes successfully returns a list whose entry
carries an audio file. -/
theorem synthesize_segments_zero_success_raises_witness :
    ∃ r ∈ [(⟨"Host", "hi", 0, some "od/segment_0000.mp3", none⟩ : TtsRec)],
      r.audio_path.isSome = true :=
  synthesize_segments_zero_success_raises.1 (fun _ _ => .ok ()) [⟨"Host", "hi"⟩]
    "od" "google" false _ (by decide)

end APITTSService

namespace AudioMixer

open APITTSService

/-- The audio paths of the segments that `_mix_with_ffmpeg` includes:
present and naming an existing file. -/
lemma intersperse_cons_bind {α : Type} (s : α) (a : α) :
    ∀ l : List α, List.intersperse s (a :: l) = a :: l.bind (fun b => [s, b]) := by
  intro l
  induction l generalizing a with
  | nil => rfl
  | cons b l ih =>
    rw [List.intersperse_cons₂]
    rw [ih b]
    rfl

lemma ffmpegLoop_pause_every (existsF : String → Bool) (probe : String → Option ℚ)
    (pausePath : String) (hI : Bool) :
    ∀ (segs : List TtsRec) entries (added : Nat) (total : ℚ),
      (hI = true ∨ 0 < added) →
      ffmpegLoop existsF probe pausePath hI segs entries added total =
        (entries ++
            ((segs.filterMap (fun s => s.audio_path)).filter existsF).bind
              (fun p => [pausePath, p]),
          added + ((segs.filterMap (fun s => s.audio_path)).filter existsF).length,
          total + (((segs.filterMap (fun s => s.audio_path)).filter existsF).map
            (fun p => (probe p).getD 0)).sum) := by
  intro segs
  induction segs with
  | nil =>
    intro entries added total _
    simp [ffmpegLoop]
  | cons seg rest ih =>
    intro entries added total hcond
    rcases hpath : seg.audio_path with _ | path
    · simp only [ffmpegLoop, hpath]
      rw [ih entries added total hcond]
      simp [List.filterMap_cons, hpath]
    · by_cases hex : existsF path = true
      · have hfirst : (0 < added || hI) = true := by
          rcases hcond with h | h
          · simp [h]
          · simp [h]
        simp only [ffmpegLoop, hpath, hex, if_true, hfirst]
        rw [ih (entries ++ [pausePath] ++ [path]) (added + 1) _ (Or.inr (by omega))]
        refine congrArg₂ Prod.mk ?_ (congrArg₂ Prod.mk ?_ ?_)
        · simp [List.filterMap_cons, hpath, hex, List.append_assoc]
        · simp [List.filterMap_cons, hpath, hex]
          omega
        · simp only [List.filterMap_cons, hpath, List.filter_cons, hex, if_true,
            List.map_cons, List.sum_cons]
          rcases hprobe : probe path with _ | d <;> simp [hprobe] <;> try ring
      · rw [Bool.not_eq_true] at hex
        simp only [ffmpegLoop, hpath, hex, Bool.false_eq_true, if_false]
        rw [ih entries added total hcond]
        simp [List.filterMap_cons, hpath, List.filter_cons, hex]

lemma ffmpegLoop_no_intro (existsF : String → Bool) (probe : String → Option ℚ)
    (pausePath : String) :
    ∀ (segs : List TtsRec) entries (total : ℚ),
      ffmpegLoop existsF probe pausePath false segs entries 0 total =
        (entries ++
            List.intersperse pausePath
              ((segs.filterMap (fun s => s.audio_path)).filter existsF),
          ((segs.filterMap (fun s => s.audio_path)).filter existsF).length,
          total + (((segs.filterMap (fun s => s.audio_path)).filter existsF).map
            (fun p => (probe p).getD 0)).sum) := by
  intro segs
  induction segs with
  | nil =>
    intro entries total
    simp [ffmpegLoop]
  | cons seg rest ih =>
    intro entries total
    rcases hpath : seg.audio_path with _ | path
    · simp only [ffmpegLoop, hpath]
      rw [ih entries total]
      simp [List.filterMap_cons, hpath]
    · by_cases hex : existsF path = true
      · simp only [ffmpegLoop, hpath, hex, if_true, Nat.lt_irrefl, Bool.or_false,
          decide_eq_true_eq, Bool.false_eq_true, if_false]
        rw [ffmpegLoop_pause_every existsF probe pausePath false rest (entries ++ [path]) 1 _
          (Or.inr (by omega))]
        refine congrArg₂ Prod.mk ?_ (congrArg₂ Prod.mk ?_ ?_)
        · simp only [List.filterMap_cons, hpath, List.filter_cons, hex, if_true]
          rw [intersperse_cons_bind]
          simp [List.append_assoc]
        · simp only [List.filterMap_cons, hpath, List.filter_cons, hex, if_true]
          simp
          omega
        · simp only [List.filterMap_cons, hpath, List.filter_cons, hex, if_true,
            List.map_cons, List.sum_cons]
          rcases hprobe : probe path with _ | d <;> simp [hprobe] <;> try ring
      · rw [Bool.not_eq_true] at hex
        simp only [ffmpegLoop, hpath, hex, Bool.false_eq_true, if_false]
        rw [ih entries total]
        simp [List.filterMap_cons, hpath, List.filter_cons, hex]

/-- **C6, counterexample.**  Two segments probed at 3 s and 4 s with a
400 ms pause: the claim predicts a reported duration of
`3 + 4 + (2−1)·0.4 = 7.4 s` within encoding tolerance (taken generously
as 100 ms), but the ffmpeg path reports exactly 7 s.  Moreover the
reported duration is unchanged when the pause is set to 0 — it is the sum
of the per-segment probes, not a measurement of the final track. -/
theorem mix_ffmpeg_duration_cex :
    (mix_with_ffmpeg (fun _ => true) (fun p => if p = "s0.mp3" then some 3 else some 4)
        [⟨"A", "a", 0, some "s0.mp3", none⟩, ⟨"B", "b", 1, some "s1.mp3", none⟩]
        400 none none).durationSeconds = 7 ∧
      ¬ |(7 : ℚ) - (3 + 4 + (2 - 1) * (400 / 1000))| ≤ 1 / 10 ∧
      (mix_with_ffmpeg (fun _ => true) (fun p => if p = "s0.mp3" then some 3 else some 4)
          [⟨"A", "a", 0, some "s0.mp3", none⟩, ⟨"B", "b", 1, some "s1.mp3", none⟩]
          0 none none).durationSeconds = 7 := by
  have hs1 : ¬("s1.mp3" : String) = "s0.mp3" := by decide
  refine ⟨?_, ?_, ?_⟩
  · simp only [mix_with_ffmpeg]
    rw [ffmpegLoop_no_intro]
    simp [List.filterMap_cons, List.filter_cons, hs1]
    norm_num
  · rw [abs_le]
    intro h
    have := h.1
    norm_num at this
  · simp only [mix_with_ffmpeg]
    rw [ffmpegLoop_no_intro]
    simp [List.filterMap_cons, List.filter_cons, hs1]
    norm_num

/-- **C6, amended.**  The duration reported by the ffmpeg mixing path is
exactly the sum of the per-segment `ffprobe` durations of the included
segments (0 for a failed probe): the inter-segment pauses contribute
nothing, and the whole result is independent of the configured pause —
it is summed from per-segment probes, not measured from the final track. -/
theorem mix_ffmpeg_duration_is_probe_sum (existsF : String → Bool)
    (probe : String → Option ℚ) (segs : List TtsRec) (pauseMs pauseMs' : ℚ) :
    (mix_with_ffmpeg existsF probe segs pauseMs none none).durationSeconds =
        (((segs.filterMap (fun s => s.audio_path)).filter existsF).map
          (fun p => (probe p).getD 0)).sum ∧
      mix_with_ffmpeg existsF probe segs pauseMs none none =
        mix_with_ffmpeg existsF probe segs pauseMs' none none := by
  constructor
  · simp only [mix_with_ffmpeg]
    rw [ffmpegLoop_no_intro]
    simp
  · rfl

/-- **C7.**  Per-segment retry and degradation: (1) two transient
failures lead to a third attempt with sleeps of `5·2⁰` and `5·2¹` seconds
between the three attempts; (2) a non-transient failure stops after one
attempt with the segment marked failed; (3) a segment whose every attempt
fails is appended with a null audio path and the loop continues with the
remaining segments; (4) the ffmpeg mixing path includes exactly the
segments whose audio file is present — missing ones are skipped, never
aborted on. -/
theorem tts_retry_and_mix_skip :
    (∀ (outc : Nat → Except String Unit) (i : Nat) (e0 e1 : String),
        outc 0 = .error e0 → isTransientErr e0 = true →
        outc 1 = .error e1 → isTransientErr e1 = true →
        (runAttempts outc i 0 maxRetries none).2.2 =
          [TtsEv.call i 0, TtsEv.slept i (5 * 2 ^ 0), TtsEv.call i 1,
            TtsEv.slept i (5 * 2 ^ 1), TtsEv.call i 2]) ∧
      (∀ (outc : Nat → Except String Unit) (i : Nat) (e0 : String),
          outc 0 = .error e0 → isTransientErr e0 = false →
          runAttempts outc i 0 maxRetries none = (false, some e0, [TtsEv.call i 0])) ∧
      (∀ (outcome : Nat → Nat → Except String Unit) (od : String) (cb : Bool)
          (tot : Nat) (seg : Seg) (rest : List Seg) (i : Nat)
          (results : List TtsRec) (evs : List TtsEv) (b : Bool),
          pyStrip seg.text.data ≠ [] → results.length ≤ i →
          (∀ a, ∃ e, outcome i a = .error e) →
          ∃ em aevs,
            synthLoop outcome od cb tot (seg :: rest) i results evs b =
              synthLoop outcome od cb tot rest (i + 1)
                (results ++ [⟨seg.speaker, seg.text, i, none, some em⟩])
                (evs ++ (if cb then [TtsEv.cb i tot] else []) ++ aevs) true) ∧
      (∀ (existsF : String → Bool) (probe : String → Option ℚ)
          (segs : List TtsRec) (pauseMs : ℚ),
          (mix_with_ffmpeg existsF probe segs pauseMs none none).concatEntries =
              List.intersperse "PAUSE"
                ((segs.filterMap (fun s => s.audio_path)).filter existsF) ∧
            (mix_with_ffmpeg existsF probe segs pauseMs none none).segmentsCount =
              ((segs.filterMap (fun s => s.audio_path)).filter existsF).length) := by
  refine ⟨?_, ?_, ?_, ?_⟩
  · intro outc i e0 e1 h0 ht0 h1 ht1
    show (runAttempts outc i 0 3 none).2.2 = _
    simp only [runAttempts, h0, ht0, if_true, h1, ht1]
    match h2 : outc 2 with
    | .ok u => simp [runAttempts, h2]
    | .error e2 =>
      by_cases ht2 : isTransientErr e2 = true
      · simp [runAttempts, h2, ht2]
      · simp [runAttempts, h2, ht2]
  · intro outc i e0 h0 ht0
    show runAttempts outc i 0 3 none = _
    simp [runAttempts, h0, ht0]
  · intro outcome od cb tot seg rest i results evs b hne hlen hfail
    refine ⟨((runAttempts (outcome i) i 0 maxRetries none).2.1).get
      (runAttempts_lastErr_isSome (outcome i) i hfail maxRetries 0 none (by norm_num [maxRetries])),
      (runAttempts (outcome i) i 0 maxRetries none).2.2, ?_⟩
    simp only [synthLoop, if_neg hne]
    have hsucc := runAttempts_fail (outcome i) i hfail maxRetries 0 none
    rw [hsucc]
    have hsome := runAttempts_lastErr_isSome (outcome i) i hfail maxRetries 0 none
      (by norm_num [maxRetries])
    have hcond : ((runAttempts (outcome i) i 0 maxRetries none).2.1.isSome &&
        decide (results.length ≤ i)) = true := by
      rw [hsome, decide_eq_true hlen]
      rfl
    simp only [Bool.false_eq_true, if_false, hcond, if_true]
    rw [Option.some_get hsome]
  · intro existsF probe segs pauseMs
    constructor
    · simp only [mix_with_ffmpeg]
      rw [ffmpegLoop_no_intro]
      simp
    · simp only [mix_with_ffmpeg]
      rw [ffmpegLoop_no_intro]

/-- Witness for `tts_retry_and_mix_skip`: a concrete always-timing-out
segment produces exactly three attempts with 5 s and 10 s sleeps, and a
concrete mix with one present and one missing audio file includes only
the present one. -/
theorem tts_retry_and_mix_skip_witness :
    (runAttempts (fun _ => Except.error "timeout") 0 0 maxRetries none).2.2 =
        [TtsEv.call 0 0, TtsEv.slept 0 (5 * 2 ^ 0), TtsEv.call 0 1,
          TtsEv.slept 0 (5 * 2 ^ 1), TtsEv.call 0 2] ∧
      (mix_with_ffmpeg (fun _ => true) (fun _ => some 1)
          [⟨"A", "a", 0, some "x.mp3", none⟩, ⟨"B", "b", 1, none, some "boom"⟩]
          400 none none).concatEntries = ["x.mp3"] :=
  ⟨tts_retry_and_mix_skip.1 (fun _ => Except.error "timeout") 0 "timeout" "timeout"
      rfl (by decide) rfl (by decide),
    ((tts_retry_and_mix_skip.2.2.2 (fun _ => true) (fun _ => some 1)
      [⟨"A", "a", 0, some "x.mp3", none⟩, ⟨"B", "b", 1, none, some "boom"⟩] 400).1).trans
      (by decide)⟩

end AudioMixer

namespace Tasks

open APITTSService AudioMixer

lemma cleanupFinally_ep (env : Env) (st : St) : (cleanupFinally env st).ep = st.ep := by
  unfold cleanupFinally
  split <;> rfl

lemma cleanupFinally_trace (env : Env) (st : St) :
    ∃ t, (cleanupFinally env st).trace = st.trace ++ t ∧ ∀ e ∈ t, isMemSampleEv e = true := by
  unfold cleanupFinally
  split
  · refine ⟨[.memSample (env.mem st.memCtr), .memSample (env.mem (st.memCtr + 1))], ?_, ?_⟩
    · simp [sampleSt]
    · simp [isMemSampleEv]
  · exact ⟨[], by simp, by simp⟩

lemma endOfJobLog_ep (env : Env) (st : St) : (endOfJobLog env st).ep = st.ep := by
  unfold endOfJobLog
  split <;> rfl

lemma endOfJobLog_trace (env : Env) (st : St) :
    ∃ t, (endOfJobLog env st).trace = st.trace ++ t := by
  unfold endOfJobLog
  split
  · refine ⟨[.memSample (env.mem st.memCtr), .memSample (env.mem (st.memCtr + 1))], ?_⟩
    simp [sampleSt]
  · exact ⟨[], by simp⟩

lemma applyTtsEvents_step (st : St) (ev : TtsEv) (evs : List TtsEv) :
    applyTtsEvents st (ev :: evs) = applyTtsEvents (applyTtsEvents st [ev]) evs := rfl

lemma applyTtsEvents_ep_audio (evs : List TtsEv) :
    ∀ st : St, (applyTtsEvents st evs).ep.audio_url = st.ep.audio_url := by
  induction evs with
  | nil =>
    intro st
    rfl
  | cons ev evs ih =>
    intro st
    rw [applyTtsEvents_step, ih]
    cases ev <;> rfl

lemma applyTtsEvents_trace (evs : List TtsEv) :
    ∀ st : St, ∃ t, (applyTtsEvents st evs).trace = st.trace ++ t := by
  induction evs with
  | nil =>
    intro st
    exact ⟨[], by simp [applyTtsEvents]⟩
  | cons ev evs ih =>
    intro st
    rw [applyTtsEvents_step]
    obtain ⟨t, ht⟩ := ih (applyTtsEvents st [ev])
    have hev : ∃ s, (applyTtsEvents st [ev]).trace = st.trace ++ s := by
      cases ev <;> exact ⟨_, rfl⟩
    obtain ⟨s, hs⟩ := hev
    exact ⟨s ++ t, by rw [ht, hs, List.append_assoc]⟩

lemma stageCover_ep_audio (env : Env) (epId : String) (st : St) :
    (stageCover env epId st).ep.audio_url = st.ep.audio_url := by
  unfold stageCover
  by_cases hg : env.generateCover = true
  · rw [if_pos hg]
    rcases env.coverGen with e | oc
    · rfl
    · rcases oc with _ | p
      · rfl
      · rcases env.uploadCover with eu | u <;> rfl
  · rw [if_neg hg]

lemma stageCover_trace (env : Env) (epId : String) (st : St) :
    ∃ t, (stageCover env epId st).trace = st.trace ++ t := by
  unfold stageCover
  by_cases hg : env.generateCover = true
  · rw [if_pos hg]
    rcases env.coverGen with e | oc
    · exact ⟨_, rfl⟩
    · rcases oc with _ | p
      · exact ⟨_, rfl⟩
      · rcases env.uploadCover with eu | u <;> exact ⟨_, rfl⟩
  · rw [if_neg hg]
    exact ⟨[], by simp⟩

/-- **C2, counterexample.**  With an extraction failure whose exception
message is empty, the episode ends FAILED at progress 0, but the `error`
field is left unset (`update_episode_status` tests the string for
truthiness), so the claim that it contains the raised message verbatim
fails for the empty message. -/
theorem extraction_empty_msg_cex :
    (process_episode_task envExtractEmptyMsg "ep1" Episode.initial).1 =
        .error ⟨"ValueError", ""⟩ ∧
      (process_episode_task envExtractEmptyMsg "ep1" Episode.initial).2.ep.status = .failed ∧
      (process_episode_task envExtractEmptyMsg "ep1" Episode.initial).2.ep.progress = 0 ∧
      (process_episode_task envExtractEmptyMsg "ep1" Episode.initial).2.ep.error_message =
        none := by
  decide

/-- **C2, amended.**  If content extraction raises an exception with a
non-empty message, the run ends FAILED at progress 0 with the message
stored verbatim in the episode's `error` field, the status message set to
"Processing failed", and the exception re-raised to the caller.  (An
empty exception message leaves the `error` field unset.) -/
theorem extraction_failure_fatal (env : Env) (epId : String) (ep0 : Episode) (e : PyExc)
    (hEx : env.episodeExists = true)
    (hmem : env.psutilAvailable = false ∨ env.mem 0 ≤ 85)
    (hextr : env.extraction = .error e)
    (hmsg : e.msg ≠ "") :
    (process_episode_task env epId ep0).1 = .error e ∧
      (process_episode_task env epId ep0).2.ep.status = .failed ∧
      (process_episode_task env epId ep0).2.ep.progress = 0 ∧
      (process_episode_task env epId ep0).2.ep.error_message = some e.msg ∧
      (process_episode_task env epId ep0).2.ep.status_message = some "Processing failed" := by
  have htry : ∀ st : St, tryBody env epId st =
      (.error e,
        update_episode_status
          (update_episode_status st .processing 0 "Starting processing pipeline" none)
          .processing 5 "Extracting content" none) := by
    intro st
    simp only [tryBody, hEx, Bool.not_true, Bool.false_eq_true, if_false, hextr]
  have hrun : ∀ st : St,
      runBody env epId st =
        (.error e, cleanupFinally env
          (update_episode_status
            (update_episode_status
              (update_episode_status st .processing 0 "Starting processing pipeline" none)
              .processing 5 "Extracting content" none)
            .failed 0 "Processing failed" (some e.msg))) := by
    intro st
    simp only [runBody, htry st]
  have hfields : ∀ st : St,
      (runBody env epId st).1 = .error e ∧
        (runBody env epId st).2.ep.status = .failed ∧
        (runBody env epId st).2.ep.progress = 0 ∧
        (runBody env epId st).2.ep.error_message = some e.msg ∧
        (runBody env epId st).2.ep.status_message = some "Processing failed" := by
    intro st
    rw [hrun st]
    refine ⟨rfl, ?_, ?_, ?_, ?_⟩
    · rw [cleanupFinally_ep]
      rfl
    · rw [cleanupFinally_ep]
      rfl
    · rw [cleanupFinally_ep]
      show (if e.msg = "" then _ else some e.msg) = some e.msg
      rw [if_neg hmsg]
    · rw [cleanupFinally_ep]
      rfl
  rcases hmem with hps | h85
  · simp only [process_episode_task, hps, Bool.false_eq_true, if_false]
    exact hfields _
  · by_cases hps : env.psutilAvailable = true
    · simp only [process_episode_task, hps, if_true, sampleSt]
      rw [if_neg (not_lt.mpr h85)]
      exact hfields _
    · simp only [process_episode_task, hps, Bool.false_eq_true, if_false]
      exact hfields _

lemma update_episode_status_ep_audio (st : St) (s : JobStatus) (p : Nat) (m : String)
    (er : Option String) :
    (update_episode_status st s p m er).ep.audio_url = st.ep.audio_url := rfl

lemma update_episode_status_ep_script (st : St) (s : JobStatus) (p : Nat) (m : String)
    (er : Option String) :
    (update_episode_status st s p m er).ep.script = st.ep.script := rfl

lemma update_episode_status_memCtr (st : St) (s : JobStatus) (p : Nat) (m : String)
    (er : Option String) :
    (update_episode_status st s p m er).memCtr = st.memCtr := rfl

lemma update_episode_status_trace (st : St) (s : JobStatus) (p : Nat) (m : String)
    (er : Option String) :
    (update_episode_status st s p m er).trace = st.trace ++ [.statusUpd s p m er] := rfl

lemma synthLoop_zero_success (outcome : Nat → Nat → Except String Unit)
    (od : String) (cb : Bool) (tot : Nat) (segs : List Seg)
    (hfail : ∀ i a, ∃ e, outcome i a = .error e) :
    (((synthLoop outcome od cb tot segs 0 [] [] false).1.filter
      (fun t => t.audio_path.isSome)).length = 0) := by
  have hnone := synthLoop_all_none outcome od cb tot hfail segs 0 [] [] false (by simp)
  have hfilter : ((synthLoop outcome od cb tot segs 0 [] [] false).1.filter
      (fun t => t.audio_path.isSome)) = [] := by
    rw [List.filter_eq_nil_iff]
    intro r hr
    simp [hnone r hr]
  rw [hfilter]
  rfl

lemma synthesize_segments_allFail_error (outcome : Nat → Nat → Except String Unit)
    (segs : List Seg) (od prov : String) (cb : Bool)
    (hfail : ∀ i a, ∃ e, outcome i a = .error e) :
    ∃ en, (synthesize_segments outcome segs od prov cb).1 = .error en := by
  unfold synthesize_segments
  rw [if_pos (synthLoop_zero_success outcome od cb segs.length segs hfail)]
  by_cases ha : (synthLoop outcome od cb segs.length segs 0 [] [] false).2.2 = true
  · rw [if_pos ha]
    exact ⟨_, rfl⟩
  · rw [if_neg ha]
    exact ⟨_, rfl⟩

lemma applyTtsEvents_memCtr (evs : List TtsEv) :
    ∀ st : St, (applyTtsEvents st evs).memCtr = st.memCtr := by
  induction evs with
  | nil =>
    intro st
    rfl
  | cons ev evs ih =>
    intro st
    rw [applyTtsEvents_step, ih]
    cases ev <;> rfl

lemma stageAudio_allFail (env : Env) (epId : String) (sr : ScriptRes) (st : St)
    (hfail : ∀ i a, ∃ e, env.ttsOutcome i a = .error e) :
    (stageAudio env epId sr st).1.ep.audio_url = st.ep.audio_url ∧
      (stageAudio env epId sr st).1.memCtr = st.memCtr ∧
      ∃ t, (stageAudio env epId sr st).1.trace = st.trace ++ t ∧
        Ev.statusUpd .processing 90 "Script ready (audio unavailable)" none ∈ t := by
  unfold stageAudio
  by_cases hseg : sr.parsed_segments = []
  · rw [if_pos hseg]
    refine ⟨rfl, rfl, ?_⟩
    refine ⟨[.statusUpd .processing 55 "Generating audio" none,
      .statusUpd .processing 90 "Script ready (audio unavailable)" none], ?_, by simp⟩
    simp [update_episode_status_trace, List.append_assoc]
  · rw [if_neg hseg]
    obtain ⟨en, hen⟩ := synthesize_segments_allFail_error env.ttsOutcome sr.parsed_segments
      ("output/" ++ epId ++ "/segments") env.ttsProvider true hfail
    simp only [hen]
    refine ⟨?_, ?_, ?_⟩
    · rw [update_episode_status_ep_audio, applyTtsEvents_ep_audio, update_episode_status_ep_audio]
    · rw [update_episode_status_memCtr, applyTtsEvents_memCtr, update_episode_status_memCtr]
    · obtain ⟨te, hte⟩ := applyTtsEvents_trace
        ((synthesize_segments env.ttsOutcome sr.parsed_segments
          ("output/" ++ epId ++ "/segments") env.ttsProvider true).2)
        (update_episode_status st .processing 55 "Generating audio" none)
      refine ⟨[Ev.statusUpd .processing 55 "Generating audio" none] ++ te ++
        [Ev.statusUpd .processing 90 "Script ready (audio unavailable)" none], ?_, by simp⟩
      rw [update_episode_status_trace, hte, update_episode_status_trace]
      simp [List.append_assoc]

lemma recordScript_ep_audio (sr : ScriptRes) (st : St) :
    (recordScript sr st).ep.audio_url = st.ep.audio_url := rfl

lemma recordScript_trace (sr : ScriptRes) (st : St) :
    (recordScript sr st).trace = st.trace := rfl

lemma recordScript_memCtr (sr : ScriptRes) (st : St) :
    (recordScript sr st).memCtr = st.memCtr := rfl

lemma recordTranscript_ep_audio (st : St) :
    (recordTranscript st).ep.audio_url = st.ep.audio_url := rfl

lemma recordTranscript_trace (st : St) :
    (recordTranscript st).trace = st.trace := rfl

lemma scriptAndOn_allFail (env : Env) (epId : String) (sr : ScriptRes) (st : St)
    (hscript : env.scriptGen = .ok sr)
    (hfail : ∀ i a, ∃ e, env.ttsOutcome i a = .error e) :
    (∃ res, (scriptAndOn env epId st).1 = .ok res) ∧
      (scriptAndOn env epId st).2.ep.status = .completed ∧
      (scriptAndOn env epId st).2.ep.progress = 100 ∧
      (scriptAndOn env epId st).2.ep.audio_url = st.ep.audio_url ∧
      (scriptAndOn env epId st).2.ep.status_message =
        some "Episode generated successfully" ∧
      ∃ t, (scriptAndOn env epId st).2.trace = st.trace ++ t ∧
        Ev.statusUpd .processing 90 "Script ready (audio unavailable)" none ∈ t := by
  obtain ⟨ha, hm, ts, hts, hmem⟩ := stageAudio_allFail env epId sr
    (update_episode_status (recordScript sr st) .processing 50 "Script ready" none) hfail
  simp only [scriptAndOn, hscript]
  refine ⟨⟨_, rfl⟩, ?_, ?_, ?_, ?_, ?_⟩
  · rw [endOfJobLog_ep]
    rfl
  · rw [endOfJobLog_ep]
    rfl
  · rw [endOfJobLog_ep, update_episode_status_ep_audio, stageCover_ep_audio,
      recordTranscript_ep_audio, ha, update_episode_status_ep_audio, recordScript_ep_audio]
  · rw [endOfJobLog_ep]
    rfl
  · obtain ⟨t6, ht6⟩ := endOfJobLog_trace env
      (update_episode_status
        (stageCover env epId
          (recordTranscript (stageAudio env epId sr
            (update_episode_status (recordScript sr st)
              .processing 50 "Script ready" none)).1))
        .completed 100 "Episode generated successfully" none)
    obtain ⟨tc, htc⟩ := stageCover_trace env epId
      (recordTranscript (stageAudio env epId sr
        (update_episode_status (recordScript sr st) .processing 50 "Script ready" none)).1)
    refine ⟨[Ev.statusUpd .processing 50 "Script ready" none] ++ ts ++ tc ++
      [Ev.statusUpd .completed 100 "Episode generated successfully" none] ++ t6,
      ?_, by simp [hmem]⟩
    rw [ht6, update_episode_status_trace, htc, recordTranscript_trace, hts,
      update_episode_status_trace, recordScript_trace]
    simp [List.append_assoc]

lemma sampleSt_fst (env : Env) (st : St) : (sampleSt env st).1 = env.mem st.memCtr := rfl

lemma sampleSt_ep (env : Env) (st : St) : (sampleSt env st).2.ep = st.ep := rfl

lemma sampleSt_trace (env : Env) (st : St) :
    (sampleSt env st).2.trace = st.trace ++ [.memSample (env.mem st.memCtr)] := rfl

lemma sampleSt_memCtr (env : Env) (st : St) : (sampleSt env st).2.memCtr = st.memCtr + 1 := rfl

lemma scriptAndOn_allFail_ext (env : Env) (epId : String) (sr : ScriptRes)
    (stX st : St) (hscript : env.scriptGen = .ok sr)
    (hfail : ∀ i a, ∃ e, env.ttsOutcome i a = .error e)
    (haud : stX.ep.audio_url = st.ep.audio_url)
    (htr : ∃ p, stX.trace = st.trace ++ p) :
    (∃ res, (scriptAndOn env epId stX).1 = .ok res) ∧
      (scriptAndOn env epId stX).2.ep.status = .completed ∧
      (scriptAndOn env epId stX).2.ep.progress = 100 ∧
      (scriptAndOn env epId stX).2.ep.audio_url = st.ep.audio_url ∧
      (scriptAndOn env epId stX).2.ep.status_message =
        some "Episode generated successfully" ∧
      ∃ t, (scriptAndOn env epId stX).2.trace = st.trace ++ t ∧
        Ev.statusUpd .processing 90 "Script ready (audio unavailable)" none ∈ t := by
  obtain ⟨hres, h1, h2, h3, h4, t, ht, hmem⟩ :=
    scriptAndOn_allFail env epId sr stX hscript hfail
  obtain ⟨p, hp⟩ := htr
  refine ⟨hres, h1, h2, by rw [h3, haud], h4, p ++ t, ?_, by simp [hmem]⟩
  rw [ht, hp, List.append_assoc]

lemma runBody_allFail (env : Env) (epId : String) (sr : ScriptRes) (st : St)
    (hEx : env.episodeExists = true)
    (hextr : ∃ c, env.extraction = .ok c)
    (hchunk : env.chunkEmbed = .ok ())
    (hscript : env.scriptGen = .ok sr)
    (hfail : ∀ i a, ∃ e, env.ttsOutcome i a = .error e)
    (hmem2 : env.psutilAvailable = true →
      env.mem st.memCtr ≤ 450 ∧ env.mem (st.memCtr + 1) ≤ 90) :
    (∃ res, (runBody env epId st).1 = .ok res) ∧
      (runBody env epId st).2.ep.status = .completed ∧
      (runBody env epId st).2.ep.progress = 100 ∧
      (runBody env epId st).2.ep.audio_url = st.ep.audio_url ∧
      (runBody env epId st).2.ep.status_message =
        some "Episode generated successfully" ∧
      Ev.statusUpd .processing 90 "Script ready (audio unavailable)" none ∈
        (runBody env epId st).2.trace := by
  obtain ⟨c, hc⟩ := hextr
  have htryGoal :
      (∃ res, (tryBody env epId st).1 = .ok res) ∧
        (tryBody env epId st).2.ep.status = .completed ∧
        (tryBody env epId st).2.ep.progress = 100 ∧
        (tryBody env epId st).2.ep.audio_url = st.ep.audio_url ∧
        (tryBody env epId st).2.ep.status_message =
          some "Episode generated successfully" ∧
        ∃ t, (tryBody env epId st).2.trace = st.trace ++ t ∧
          Ev.statusUpd .processing 90 "Script ready (audio unavailable)" none ∈ t := by
    simp only [tryBody, hEx, Bool.not_true, Bool.false_eq_true, if_false, hc, hchunk]
    by_cases hps : env.psutilAvailable = true
    · simp only [hps, if_true, sampleSt_fst, sampleSt_memCtr, update_episode_status_memCtr]
      rw [if_neg (not_lt.mpr (hmem2 hps).2), if_neg (not_lt.mpr (hmem2 hps).1)]
      refine scriptAndOn_allFail_ext env epId sr _ st hscript hfail rfl ?_
      refine ⟨[.statusUpd .processing 0 "Starting processing pipeline" none,
        .statusUpd .processing 5 "Extracting content" none,
        .statusUpd .processing 10 "Content extracted" none,
        .statusUpd .processing 15 "Creating embeddings" none,
        .statusUpd .processing 30 "Embeddings stored" none,
        .statusUpd .processing 35 "Generating script" none,
        .memSample (env.mem st.memCtr), .memSample (env.mem (st.memCtr + 1))], ?_⟩
      simp [sampleSt_trace, sampleSt_memCtr, update_episode_status_trace,
        update_episode_status_memCtr, List.append_assoc]
    · simp only [hps, Bool.false_eq_true, if_false]
      refine scriptAndOn_allFail_ext env epId sr _ st hscript hfail rfl ?_
      refine ⟨[.statusUpd .processing 0 "Starting processing pipeline" none,
        .statusUpd .processing 5 "Extracting content" none,
        .statusUpd .processing 10 "Content extracted" none,
        .statusUpd .processing 15 "Creating embeddings" none,
        .statusUpd .processing 30 "Embeddings stored" none,
        .statusUpd .processing 35 "Generating script" none], ?_⟩
      simp [update_episode_status_trace, List.append_assoc]
  obtain ⟨⟨res, hres⟩, h1, h2, h3, h4, t, ht, hmem⟩ := htryGoal
  simp only [runBody, hres]
  obtain ⟨tcl, hcl, _⟩ := cleanupFinally_trace env (tryBody env epId st).2
  refine ⟨⟨res, rfl⟩, ?_, ?_, ?_, ?_, ?_⟩
  · rw [cleanupFinally_ep, h1]
  · rw [cleanupFinally_ep, h2]
  · rw [cleanupFinally_ep, h3]
  · rw [cleanupFinally_ep, h4]
  · rw [hcl, ht]
    simp [hmem]

/-- **C1, counterexample.**  In a run where every speech-synthesis call
fails, the episode does end COMPLETED with `audio_url` null, but the
*final* status message is "Episode generated successfully", which does
not even mention audio: the audio-unavailable message is not what the run
ends with. -/
theorem tts_total_failure_final_message_cex :
    (process_episode_task envTtsAllFail "ep1" Episode.initial).2.ep.status = .completed ∧
      (process_episode_task envTtsAllFail "ep1" Episode.initial).2.ep.audio_url = none ∧
      (process_episode_task envTtsAllFail "ep1" Episode.initial).2.ep.status_message =
          some "Episode generated successfully" ∧
      containsSub "Episode generated successfully".data "audio".data = false := by
  decide

/-- **C1, amended.**  If the pipeline reaches speech synthesis and every
synthesis call fails, the run still completes: the result is returned,
the episode ends COMPLETED at progress 100 with `audio_url` left null,
and the status message "Script ready (audio unavailable)" is recorded at
the 90 % checkpoint — but the *final* status message is the generic
"Episode generated successfully", which overwrites it. -/
theorem tts_total_failure_degrades (env : Env) (epId : String) (ep0 : Episode)
    (sr : ScriptRes)
    (hEx : env.episodeExists = true)
    (hmem : env.psutilAvailable = false ∨
      (env.mem 0 ≤ 85 ∧ env.mem 2 ≤ 450 ∧ env.mem 3 ≤ 90))
    (hextr : ∃ c, env.extraction = .ok c)
    (hchunk : env.chunkEmbed = .ok ())
    (hscript : env.scriptGen = .ok sr)
    (hfail : ∀ i a, ∃ e, env.ttsOutcome i a = .error e)
    (h0 : ep0.audio_url = none) :
    (∃ res, (process_episode_task env epId ep0).1 = .ok res) ∧
      (process_episode_task env epId ep0).2.ep.status = .completed ∧
      (process_episode_task env epId ep0).2.ep.progress = 100 ∧
      (process_episode_task env epId ep0).2.ep.audio_url = none ∧
      (process_episode_task env epId ep0).2.ep.status_message =
        some "Episode generated successfully" ∧
      Ev.statusUpd .processing 90 "Script ready (audio unavailable)" none ∈
        (process_episode_task env epId ep0).2.trace := by
  rcases hmem with hps | hbounds
  · simp only [process_episode_task, hps, Bool.false_eq_true, if_false]
    have := runBody_allFail env epId sr ⟨ep0, [], 0⟩ hEx hextr hchunk hscript hfail
      (by intro h; rw [hps] at h; exact absurd h (by simp))
    simpa [h0] using this
  · by_cases hps : env.psutilAvailable = true
    · simp only [process_episode_task, hps, if_true, sampleSt_fst, sampleSt_memCtr]
      rw [if_neg (not_lt.mpr hbounds.1)]
      have := runBody_allFail env epId sr (sampleSt env (sampleSt env ⟨ep0, [], 0⟩).2).2
        hEx hextr hchunk hscript hfail
        (fun _ => by
          simp only [sampleSt_memCtr]
          exact ⟨hbounds.2.1, hbounds.2.2⟩)
      simpa [h0, sampleSt_ep] using this
    · simp only [process_episode_task, hps, Bool.false_eq_true, if_false]
      have := runBody_allFail env epId sr ⟨ep0, [], 0⟩ hEx hextr hchunk hscript hfail
        (by intro h; exact absurd h hps)
      simpa [h0] using this

lemma containsSub_append_right (s t pat : List Char) (h : containsSub t pat = true) :
    containsSub (s ++ t) pat = true := by
  induction s with
  | nil => simpa using h
  | cons c s ih =>
    have hstep : containsSub ((c :: s) ++ t) pat =
        (pat.isPrefixOf ((c :: s) ++ t) || containsSub (s ++ t) pat) := rfl
    rw [hstep, ih, Bool.or_true]

lemma data_append (a b : String) : (a ++ b).data = a.data ++ b.data := rfl

lemma memHighStartMsg_retry_later (p mb : ℚ) :
    containsSub (memHighStartMsg p mb).data "retry later".data = true := by
  unfold memHighStartMsg
  rw [data_append]
  exact containsSub_append_right _ _ _ (by decide)

lemma memHighScriptMsg_retry_later (p : ℚ) :
    containsSub (memHighScriptMsg p).data "retry later".data = true := by
  unfold memHighScriptMsg
  rw [data_append]
  exact containsSub_append_right _ _ _ (by decide)

lemma tryBody_memTrip (env : Env) (epId : String) (st : St) (c : String)
    (hEx : env.episodeExists = true)
    (hps : env.psutilAvailable = true)
    (hextr : env.extraction = .ok c)
    (hchunk : env.chunkEmbed = .ok ())
    (h90 : 90 < env.mem (st.memCtr + 1)) :
    (tryBody env epId st).1 =
        .error ⟨"RuntimeError", memHighScriptMsg (env.mem (st.memCtr + 1))⟩ ∧
      (tryBody env epId st).2.ep.script = st.ep.script ∧
      (tryBody env epId st).2.trace = st.trace ++
        [.statusUpd .processing 0 "Starting processing pipeline" none,
          .statusUpd .processing 5 "Extracting content" none,
          .statusUpd .processing 10 "Content extracted" none,
          .statusUpd .processing 15 "Creating embeddings" none,
          .statusUpd .processing 30 "Embeddings stored" none,
          .statusUpd .processing 35 "Generating script" none,
          .memSample (env.mem st.memCtr), .memSample (env.mem (st.memCtr + 1))] := by
  simp only [tryBody, hEx, Bool.not_true, Bool.false_eq_true, if_false, hextr, hchunk,
    hps, if_true, sampleSt_fst, sampleSt_memCtr, update_episode_status_memCtr]
  rw [if_pos h90]
  refine ⟨rfl, ?_, ?_⟩
  · rw [sampleSt_ep, sampleSt_ep, update_episode_status_ep_script,
      update_episode_status_ep_script, update_episode_status_ep_script,
      update_episode_status_ep_script, update_episode_status_ep_script,
      update_episode_status_ep_script]
  · simp [sampleSt_trace, sampleSt_memCtr, update_episode_status_trace,
      update_episode_status_memCtr, List.append_assoc]

/-- **C3, counterexample.**  With memory pressure low at the two points
the worker actually samples (task start and before script generation) but
at 99 % from then on, the run completes normally: the speech-synthesis
stage runs (a synthesis attempt appears in the trace), no memory sample
occurs between the "Script ready" checkpoint and the first synthesis
attempt, and no exception — let alone a `ResourceExhaustionError` (a
class the code base does not even define) — is raised. -/
theorem memory_pressure_at_synthesis_ignored_cex :
    (process_episode_task envHighMemAtSynth "ep1" Episode.initial).2.ep.status =
        .completed ∧
      Ev.synthCall 0 0 ∈
        (process_episode_task envHighMemAtSynth "ep1" Episode.initial).2.trace ∧
      sampledBeforeSynthesis
        (process_episode_task envHighMemAtSynth "ep1" Episode.initial).2.trace = false ∧
      85 < envHighMemAtSynth.mem 4 := by
  decide

/-- **C3, amended.**  The memory guard runs at exactly two points, not
before every heavy stage: (1) at task start — system memory above 85 %
raises a `RuntimeError` (not a `ResourceExhaustionError`) whose message
says "retry later", before any status write, leaving exactly the two
samples in the trace; (2) before script generation — system memory above
90 % raises a retry-later `RuntimeError` which marks the episode FAILED
with the script never generated.  No sampling happens before speech
synthesis. -/
theorem memory_guard_checks :
    (∀ (env : Env) (epId : String) (ep0 : Episode),
        env.psutilAvailable = true → 85 < env.mem 0 →
        process_episode_task env epId ep0 =
            (.error ⟨"RuntimeError", memHighStartMsg (env.mem 0) (env.mem 1)⟩,
              ⟨ep0, [.memSample (env.mem 0), .memSample (env.mem 1)], 2⟩) ∧
          containsSub (memHighStartMsg (env.mem 0) (env.mem 1)).data
            "retry later".data = true) ∧
    (∀ (env : Env) (epId : String) (ep0 : Episode) (c : String),
        env.psutilAvailable = true → env.episodeExists = true →
        env.extraction = .ok c → env.chunkEmbed = .ok () →
        env.mem 0 ≤ 85 → 90 < env.mem 3 →
        (process_episode_task env epId ep0).1 =
            .error ⟨"RuntimeError", memHighScriptMsg (env.mem 3)⟩ ∧
          (process_episode_task env epId ep0).2.ep.status = .failed ∧
          (process_episode_task env epId ep0).2.ep.script = ep0.script ∧
          (∀ i a, Ev.synthCall i a ∉ (process_episode_task env epId ep0).2.trace) ∧
          containsSub (memHighScriptMsg (env.mem 3)).data "retry later".data = true) := by
  constructor
  · intro env epId ep0 hps h85
    refine ⟨?_, memHighStartMsg_retry_later _ _⟩
    simp only [process_episode_task, hps, if_true, sampleSt_fst, sampleSt_memCtr]
    rw [if_pos h85]
    simp [sampleSt]
  · intro env epId ep0 c hps hEx hextr hchunk h85 h90
    have hred : process_episode_task env epId ep0 =
        runBody env epId (sampleSt env (sampleSt env ⟨ep0, [], 0⟩).2).2 := by
      simp only [process_episode_task, hps, if_true, sampleSt_fst]
      rw [if_neg (not_lt.mpr h85)]
    obtain ⟨h1, h2, h3⟩ := tryBody_memTrip env epId
      (sampleSt env (sampleSt env ⟨ep0, [], 0⟩).2).2 c hEx hps hextr hchunk h90
    have hctr3 : (sampleSt env (sampleSt env (⟨ep0, [], 0⟩ : St)).2).2.memCtr + 1 = 3 := rfl
    rw [hctr3] at h1 h3
    rw [hred]
    simp only [runBody, h1]
    obtain ⟨tcl, hcl, hclmem⟩ := cleanupFinally_trace env
      (update_episode_status
        (tryBody env epId (sampleSt env (sampleSt env ⟨ep0, [], 0⟩).2).2).2
        .failed 0 "Processing failed"
        (some (memHighScriptMsg (env.mem 3))))
    refine ⟨trivial, ?_, ?_, ?_, memHighScriptMsg_retry_later _⟩
    · rw [cleanupFinally_ep]
      rfl
    · rw [cleanupFinally_ep, update_episode_status_ep_script, h2]
      rfl
    · intro i a hmem
      rw [hcl, update_episode_status_trace, h3] at hmem
      rcases List.mem_append.mp hmem with hmem' | hmem'
      · rcases List.mem_append.mp hmem' with hmem2 | hmem2
        · rcases List.mem_append.mp hmem2 with hmem3 | hmem3
          · simp [sampleSt_trace] at hmem3
          · simp at hmem3
        · simp at hmem2
      · have := hclmem _ hmem'
        simp [isMemSampleEv] at this

/-- Witness for `memory_guard_checks`: the start guard trips at 95 %
system memory before any status write, and the pre-script check trips at
99 %. -/
theorem memory_guard_checks_witness :
    process_episode_task envGuardTrip "ep1" Episode.initial =
        (.error ⟨"RuntimeError", memHighStartMsg (envGuardTrip.mem 0) (envGuardTrip.mem 1)⟩,
          ⟨Episode.initial,
            [.memSample (envGuardTrip.mem 0), .memSample (envGuardTrip.mem 1)], 2⟩) ∧
      (process_episode_task envGuardScript "ep1" Episode.initial).1 =
        .error ⟨"RuntimeError", memHighScriptMsg (envGuardScript.mem 3)⟩ :=
  ⟨(memory_guard_checks.1 envGuardTrip "ep1" Episode.initial rfl (by decide)).1,
    (memory_guard_checks.2 envGuardScript "ep1" Episode.initial "some content"
      rfl rfl rfl rfl (by decide) (by decide)).1⟩

/-- Witness for `tts_total_failure_degrades` at the concrete environment
`envTtsAllFail`, in which every synthesis call times out. -/
theorem tts_total_failure_degrades_witness :
    (∃ res, (process_episode_task envTtsAllFail "ep1" Episode.initial).1 = .ok res) ∧
      (process_episode_task envTtsAllFail "ep1" Episode.initial).2.ep.status = .completed ∧
      (process_episode_task envTtsAllFail "ep1" Episode.initial).2.ep.progress = 100 ∧
      (process_episode_task envTtsAllFail "ep1" Episode.initial).2.ep.audio_url = none ∧
      (process_episode_task envTtsAllFail "ep1" Episode.initial).2.ep.status_message =
        some "Episode generated successfully" ∧
      Ev.statusUpd .processing 90 "Script ready (audio unavailable)" none ∈
        (process_episode_task envTtsAllFail "ep1" Episode.initial).2.trace :=
  tts_total_failure_degrades envTtsAllFail "ep1" Episode.initial
    ⟨"HOST: Hello there", 3, [⟨"Host", "Hello there"⟩]⟩
    rfl (Or.inl rfl) ⟨"some content", rfl⟩ rfl rfl
    (fun _ _ => ⟨"timeout", rfl⟩) rfl

/-- Witness for `extraction_failure_fatal` at a concrete environment
whose extraction raises `ConnectionError("network unreachable")`. -/
theorem extraction_failure_fatal_witness :
    (process_episode_task envExtractFail "ep1" Episode.initial).1 =
        .error ⟨"ConnectionError", "network unreachable"⟩ ∧
      (process_episode_task envExtractFail "ep1" Episode.initial).2.ep.status = .failed ∧
      (process_episode_task envExtractFail "ep1" Episode.initial).2.ep.progress = 0 ∧
      (process_episode_task envExtractFail "ep1" Episode.initial).2.ep.error_message =
          some "network unreachable" ∧
      (process_episode_task envExtractFail "ep1" Episode.initial).2.ep.status_message =
        some "Processing failed" :=
  extraction_failure_fatal envExtractFail "ep1" Episode.initial
    ⟨"ConnectionError", "network unreachable"⟩ rfl (Or.inl rfl) rfl (by decide)

end Tasks

end Nerva
